import Mathlib

/-!
# Presence engine of `app/status.go`

A shallow embedding of the status (presence) functions of `app/status.go`:
the process-wide LRU `statusCache`, the cache-aside read `GetStatus`, the batch
reads `GetStatusesByIds` / `GetUserStatusesByIds`, and the three transitions
`SetStatusOnline`, `SetStatusOffline`, `SetStatusAwayIfNeeded`.

Conventions of the embedding

* `*model.Status` values are copied at every point where the Go code hands a
  pointer over, and no function mutates a record after it has shared it, so
  records are plain values.
* `model.GetMillis()` is the parameter `now` of each operation (each of the
  three transitions reads the clock once).
* `int64` arithmetic is `Int` arithmetic followed by `wrap64`.
* The durable store (`Srv.Store`) is a Go interface; here it is a record of
  functions over an arbitrary store state `σ`.
* Everything a function sends to a collaborator (store writes, cluster
  propagation, metrics, the error log, `go Publish(event)`) is appended, in
  issue order, to `World.log`.
-/

set_option linter.dupNamespace false

namespace Platform

/-! ## Machine integers -/

/-- Two's-complement reduction of an integer to the `int64` range. -/
def wrap64 (x : Int) : Int := (x + 2 ^ 63) % 2 ^ 64 - 2 ^ 63

/-- Go `a - b` on `int64`. -/
def sub64 (a b : Int) : Int := wrap64 (a - b)

/-- Go `a * b` on `int64`. -/
def mul64 (a b : Int) : Int := wrap64 (a * b)

/-! ## Data model -/

/-- Modelled from the spec: `model.Status` (the PresenceRecord of §3); the five
fields are the ones the struct literals of `status.go` name. -/
structure Status where
  UserId : String
  Status : String
  Manual : Bool
  LastActivityAt : Int
  ActiveChannel : String
  deriving DecidableEq, Repr

/-- Modelled from the spec: `model.STATUS_ONLINE`, the state `ONLINE`. -/
def STATUS_ONLINE : String := "online"

/-- Modelled from the spec: `model.STATUS_AWAY`, the state `AWAY`. -/
def STATUS_AWAY : String := "away"

/-- Modelled from the spec: `model.STATUS_OFFLINE`, the state `OFFLINE`
(line 141 of `status.go` writes the same value as the literal "offline"). -/
def STATUS_OFFLINE : String := "offline"

/-- Modelled from the spec: `model.WEBSOCKET_EVENT_STATUS_CHANGE`, the event
type `STATUS_CHANGE` of §6. -/
def WEBSOCKET_EVENT_STATUS_CHANGE : String := "status_change"

/-- Modelled from the spec: `model.AppError`, an opaque store failure
(`NotFoundError` / `StoreError` of §7), identified by its id. -/
structure AppError where
  Id : String
  deriving DecidableEq, Repr

/-- Modelled from the spec: `model.WebSocketEvent` as built by
`model.NewWebSocketEvent(event, teamId, channelId, userId, omitUsers)` followed
by `event.Add(key, value)` calls; `Data` lists the added pairs in order. -/
structure WebSocketEvent where
  Event : String
  TeamId : String
  ChannelId : String
  UserId : String
  Data : List (String × String)
  deriving DecidableEq, Repr

/-- The event `SetStatus*` publish: `NewWebSocketEvent(STATUS_CHANGE, "", "",
status.UserId, nil)` with `status` and `user_id` added. -/
def statusChangeEvent (userId status : String) : WebSocketEvent :=
  { Event := WEBSOCKET_EVENT_STATUS_CHANGE, TeamId := "", ChannelId := "", UserId := userId,
    Data := [("status", status), ("user_id", userId)] }

/-! ## The LRU cache -/

/-- Modelled from the spec: `utils.Cache` (the Presence Cache of §4.1), a
bounded key→value store with least-recently-used eviction.  `entries` is kept
most-recently-used first; `size` is the capacity given to `utils.NewLru`. -/
structure Cache where
  size : Nat
  entries : List (String × Status)
  deriving DecidableEq, Repr

/-- Modelled from the spec: `utils.NewLru(size)`, an empty cache. -/
def Cache.NewLru (size : Nat) : Cache := { size := size, entries := [] }

/-- Modelled from the spec: `Cache.Purge`, removes all entries. -/
def Cache.Purge (c : Cache) : Cache := { c with entries := [] }

/-- Modelled from the spec: `Cache.Get` of §4.1: the value under `key`, if any,
with the standard LRU touch (the entry becomes the most recently used). -/
def Cache.Get (c : Cache) (key : String) : Option Status × Cache :=
  match c.entries.find? (fun e => e.1 == key) with
  | some e => (some e.2, { c with entries := e :: c.entries.eraseP (fun e => e.1 == key) })
  | none => (none, c)

/-- Modelled from the spec: `Cache.Add` of §4.1: insert or replace, the entry
becomes the most recently used; a new key that exceeds the capacity evicts the
least recently used entry. -/
def Cache.Add (c : Cache) (key : String) (value : Status) : Cache :=
  if c.entries.any (fun e => e.1 == key) then
    { c with entries := (key, value) :: c.entries.eraseP (fun e => e.1 == key) }
  else
    let entries := (key, value) :: c.entries
    if entries.length > c.size then { c with entries := entries.dropLast }
    else { c with entries := entries }

/-- Modelled from the spec: `Cache.Keys` of §4.1, the resident identifiers. -/
def Cache.Keys (c : Cache) : List String := c.entries.map (fun e => e.1)

/-- The record resident under `key`, without touching recency: the
"contents" of the cache as a mapping. -/
def Cache.peek (c : Cache) (key : String) : Option Status :=
  (c.entries.find? (fun e => e.1 == key)).map (fun e => e.2)

/-- Every entry is stored under the `UserId` of its record. -/
def Cache.Keyed (c : Cache) : Prop := ∀ e ∈ c.entries, e.2.UserId = e.1

/-! ## Collaborators -/

/-- Modelled from the spec: the Durable Presence Store of §6 (`Srv.Store`), the
operations of `Store.Status()` and `Store.Session()` that `status.go` calls.
Reads return a record or a failure; writes return the new store state and the
failure, if any, delivered on the store channel. -/
structure Store (σ : Type) where
  statusGet : σ → String → Except AppError Status
  statusGetByIds : σ → List String → Except AppError (List Status)
  statusSaveOrUpdate : σ → Status → σ × Option AppError
  statusUpdateLastActivityAt : σ → String → Int → σ × Option AppError
  sessionUpdateLastActivityAt : σ → String → Int → σ × Option AppError

/-- What the engine sends to its collaborators. -/
inductive Effect where
  | clusterUpdateStatus (s : Status)
  | metricsHit (name : String)
  | metricsMiss (name : String)
  | sessionUpdateLastActivityAt (sessionId : String) (t : Int)
  | statusSaveOrUpdate (s : Status)
  | statusUpdateLastActivityAt (userId : String) (t : Int)
  | logError (key : String) (err : AppError)
  | publish (e : WebSocketEvent)
  deriving DecidableEq, Repr

/-- A write to the durable status store. -/
def Effect.isStatusWrite : Effect → Bool
  | .statusSaveOrUpdate _ => true
  | .statusUpdateLastActivityAt _ _ => true
  | _ => false

/-- A `SaveOrUpdate` on the durable status store. -/
def Effect.isSaveOrUpdate : Effect → Bool
  | .statusSaveOrUpdate _ => true
  | _ => false

/-- A write to the session store. -/
def Effect.isSessionWrite : Effect → Bool
  | .sessionUpdateLastActivityAt _ _ => true
  | _ => false

/-- A published websocket event. -/
def Effect.isPublish : Effect → Bool
  | .publish _ => true
  | _ => false

/-- The environment of the package: the store implementation, the constants of
`model` and the configuration that `status.go` reads, and whether the optional
cluster and metrics interfaces are present. -/
structure Env (σ : Type) where
  store : Store σ
  STATUS_MIN_UPDATE_TIME : Int
  UserStatusAwayTimeout : Int
  cluster : Bool
  metrics : Bool

/-- The mutable state: the package variable `statusCache`, the state of the
durable store, and the trace of everything issued so far. -/
structure World (σ : Type) where
  statusCache : Cache
  store : σ
  log : List Effect

variable {σ : Type}

/-- Append effects to the trace. -/
def World.emit (w : World σ) (es : List Effect) : World σ := { w with log := w.log ++ es }

/-! ## `status.go` -/

/-- `ClearStatusCache`. -/
def ClearStatusCache (w : World σ) : World σ := { w with statusCache := w.statusCache.Purge }

/-- `AddStatusCacheSkipClusterSend`. -/
def AddStatusCacheSkipClusterSend (w : World σ) (status : Status) : World σ :=
  { w with statusCache := w.statusCache.Add status.UserId status }

/-- `AddStatusCache`. -/
def AddStatusCache (env : Env σ) (w : World σ) (status : Status) : World σ :=
  let w := AddStatusCacheSkipClusterSend w status
  if env.cluster then w.emit [.clusterUpdateStatus status] else w

/-- `GetStatusFromCache`: a copy of the cached record, or `none` for `nil`. -/
def GetStatusFromCache (w : World σ) (userId : String) : Option Status × World σ :=
  match w.statusCache.Get userId with
  | (some status, c) => (some status, { w with statusCache := c })
  | (none, c) => (none, { w with statusCache := c })

/-- `GetStatus`. -/
def GetStatus (env : Env σ) (w : World σ) (userId : String) : Except AppError Status × World σ :=
  match GetStatusFromCache w userId with
  | (some status, w) => (.ok status, w)
  | (none, w) =>
    match env.store.statusGet w.store userId with
    | .error err => (.error err, w)
    | .ok data => (.ok data, w)

/-- `IsUserAway`. -/
def IsUserAway (env : Env σ) (now : Int) (lastActivityAt : Int) : Bool :=
  decide (sub64 now lastActivityAt ≥ mul64 env.UserStatusAwayTimeout 1000)

/-- Lines 182-197 of `SetStatusOnline`: the two store calls are issued one
after the other (session first), then both results are awaited and a failure is
logged. -/
def SetStatusOnline.persist (env : Env σ) (w : World σ) (sessionId : String)
    (status : Status) (broadcast : Bool) : World σ :=
  let achan := env.store.sessionUpdateLastActivityAt w.store sessionId status.LastActivityAt
  let w := { w with store := achan.1 }.emit
    [.sessionUpdateLastActivityAt sessionId status.LastActivityAt]
  let schan :=
    if broadcast then env.store.statusSaveOrUpdate w.store status
    else env.store.statusUpdateLastActivityAt w.store status.UserId status.LastActivityAt
  let w := { w with store := schan.1 }.emit
    [if broadcast then .statusSaveOrUpdate status
     else .statusUpdateLastActivityAt status.UserId status.LastActivityAt]
  let w := match achan.2 with
    | some err => w.emit [.logError "api.status.last_activity.error" err]
    | none => w
  match schan.2 with
  | some err => w.emit [.logError "api.status.save_status.error" err]
  | none => w

/-- Lines 177-205 of `SetStatusOnline`: the cache write, the debounced
persistence and the broadcast, given the record to write and the values
`oldStatus`, `oldTime`, `oldManual`, `broadcast` computed before it;
`go Publish(event)` is the last effect. -/
def SetStatusOnline.finish (env : Env σ) (w : World σ) (sessionId : String)
    (status : Status) (oldStatus : String) (oldTime : Int) (oldManual : Bool)
    (broadcast : Bool) : World σ :=
  let w := AddStatusCache env w status
  let w :=
    if status.Status != oldStatus || status.Manual != oldManual
        || decide (sub64 status.LastActivityAt oldTime > env.STATUS_MIN_UPDATE_TIME) then
      SetStatusOnline.persist env w sessionId status broadcast
    else w
  if broadcast then w.emit [.publish (statusChangeEvent status.UserId STATUS_ONLINE)] else w

/-- `SetStatusOnline`. -/
def SetStatusOnline (env : Env σ) (w : World σ) (now : Int) (userId sessionId : String)
    (manual : Bool) : World σ :=
  match GetStatus env w userId with
  | (.error _, w) =>
    let status : Status :=
      { UserId := userId, Status := STATUS_ONLINE, Manual := false, LastActivityAt := now,
        ActiveChannel := "" }
    SetStatusOnline.finish env w sessionId status STATUS_OFFLINE 0 false true
  | (.ok status, w) =>
    if status.Manual && !manual then
      w -- manually set status always overrides non-manual one
    else
      let broadcast := status.Status != STATUS_ONLINE
      let oldStatus := status.Status
      let oldTime := status.LastActivityAt
      let oldManual := status.Manual
      let status := { status with Status := STATUS_ONLINE, Manual := false, LastActivityAt := now }
      SetStatusOnline.finish env w sessionId status oldStatus oldTime oldManual broadcast

/-- Lines 253-262 (and, with another state, 216-225): write the record to the
cache, `SaveOrUpdate` it, log a failure, publish the change. -/
def saveAndPublish (env : Env σ) (w : World σ) (status : Status) (state : String) : World σ :=
  let w := AddStatusCache env w status
  let result := env.store.statusSaveOrUpdate w.store status
  let w := { w with store := result.1 }.emit [.statusSaveOrUpdate status]
  let w := match result.2 with
    | some err => w.emit [.logError "api.status.save_status.error" err]
    | none => w
  w.emit [.publish (statusChangeEvent status.UserId state)]

/-- `SetStatusOffline`. -/
def SetStatusOffline (env : Env σ) (w : World σ) (now : Int) (userId : String)
    (manual : Bool) : World σ :=
  let r := GetStatus env w userId
  let w := r.2
  let blocked :=
    match r.1 with
    | .ok status => status.Manual && !manual
    | .error _ => false
  if blocked then
    w -- manually set status always overrides non-manual one
  else
    let status : Status :=
      { UserId := userId, Status := STATUS_OFFLINE, Manual := manual, LastActivityAt := now,
        ActiveChannel := "" }
    saveAndPublish env w status STATUS_OFFLINE

/-- `SetStatusAwayIfNeeded`. -/
def SetStatusAwayIfNeeded (env : Env σ) (w : World σ) (now : Int) (userId : String)
    (manual : Bool) : World σ :=
  let r := GetStatus env w userId
  let w := r.2
  let status : Status :=
    match r.1 with
    | .error _ =>
      { UserId := userId, Status := STATUS_OFFLINE, Manual := manual, LastActivityAt := 0,
        ActiveChannel := "" }
    | .ok status => status
  if !manual && status.Manual then
    w -- manually set status always overrides non-manual one
  else if !manual && status.Status == STATUS_AWAY then
    w
  else if !manual && !IsUserAway env now status.LastActivityAt then
    w
  else
    let status := { status with Status := STATUS_AWAY, Manual := manual, ActiveChannel := "" }
    saveAndPublish env w status STATUS_AWAY

/-! ### Batch reads -/

/-- Go `map[string]interface{}` whose values are status strings: an association
list with unique keys. -/
abbrev StatusMap := List (String × String)

/-- `m[k] = v`. -/
def mapSet (m : StatusMap) (k v : String) : StatusMap :=
  (k, v) :: m.filter (fun e => e.1 != k)

/-- `v, ok := m[k]`. -/
def mapGet (m : StatusMap) (k : String) : Option String :=
  (m.find? (fun e => e.1 == k)).map (fun e => e.2)

/-- The keys of a map. -/
def mapKeys (m : StatusMap) : List String := m.map (fun e => e.1)

/-- The metrics call of a cache lookup, when a metrics interface is present. -/
def metricsEffect (env : Env σ) (hit : Bool) : List Effect :=
  if env.metrics then [if hit then .metricsHit "Status" else .metricsMiss "Status"] else []

/-- Body of the loop of lines 56-68. -/
def GetStatusesByIds.lookup (env : Env σ) (acc : StatusMap × List String × World σ)
    (userId : String) : StatusMap × List String × World σ :=
  match acc.2.2.statusCache.Get userId with
  | (some result, c) =>
    (mapSet acc.1 userId result.Status, acc.2.1,
      { acc.2.2 with statusCache := c }.emit (metricsEffect env true))
  | (none, c) =>
    (acc.1, acc.2.1 ++ [userId], { acc.2.2 with statusCache := c }.emit (metricsEffect env false))

/-- Body of the loop of lines 76-79. -/
def GetStatusesByIds.backfill (env : Env σ) (acc : StatusMap × World σ) (s : Status) :
    StatusMap × World σ :=
  (mapSet acc.1 s.UserId s.Status, AddStatusCache env acc.2 s)

/-- Body of the loop of lines 84-88. -/
def GetStatusesByIds.markOffline (statusMap : StatusMap) (userId : String) : StatusMap :=
  if (mapGet statusMap userId).isNone then mapSet statusMap userId STATUS_OFFLINE else statusMap

/-- `GetStatusesByIds`. -/
def GetStatusesByIds (env : Env σ) (w : World σ) (userIds : List String) :
    Except AppError StatusMap × World σ :=
  let acc := userIds.foldl (GetStatusesByIds.lookup env) ([], [], w)
  let statusMap := acc.1
  let missingUserIds := acc.2.1
  let w := acc.2.2
  if missingUserIds.length > 0 then
    match env.store.statusGetByIds w.store missingUserIds with
    | .error err => (.error err, w)
    | .ok statuses =>
      let acc := statuses.foldl (GetStatusesByIds.backfill env) (statusMap, w)
      (.ok (missingUserIds.foldl GetStatusesByIds.markOffline acc.1), acc.2)
  else
    (.ok (missingUserIds.foldl GetStatusesByIds.markOffline statusMap), w)

/-- Body of the loop of lines 99-111. -/
def GetUserStatusesByIds.lookup (env : Env σ) (acc : List Status × List String × World σ)
    (userId : String) : List Status × List String × World σ :=
  match acc.2.2.statusCache.Get userId with
  | (some result, c) =>
    (acc.1 ++ [result], acc.2.1,
      { acc.2.2 with statusCache := c }.emit (metricsEffect env true))
  | (none, c) =>
    (acc.1, acc.2.1 ++ [userId], { acc.2.2 with statusCache := c }.emit (metricsEffect env false))

/-- The loop of lines 130-139, started at index `i`: when `missingUserIds[i]` is
the `UserId` of a collected record the element is cut out of the slice and the
index stays (`i--` followed by the loop's `i++`), otherwise the index advances. -/
def GetUserStatusesByIds.removeFound (statusMap : List Status) (missingUserIds : List String)
    (i : Nat) : List String :=
  if h : i < missingUserIds.length then
    if statusMap.any (fun userMap => missingUserIds[i] == userMap.UserId) then
      GetUserStatusesByIds.removeFound statusMap (missingUserIds.eraseIdx i) i
    else
      GetUserStatusesByIds.removeFound statusMap missingUserIds (i + 1)
  else
    missingUserIds
termination_by missingUserIds.length - i
decreasing_by
  all_goals simp_wf
  · rw [List.length_eraseIdx]
    simp [h]
    omega
  · omega

/-- Line 141: `&model.Status{UserId: userId, Status: "offline"}`, the other
fields at their zero value. -/
def offlineRecord (userId : String) : Status :=
  { UserId := userId, Status := "offline", Manual := false, LastActivityAt := 0,
    ActiveChannel := "" }

/-- Lines 127-144: drop the found identifiers from `missingUserIds`, then append
an offline record for each identifier that is left. -/
def GetUserStatusesByIds.complete (statusMap : List Status) (missingUserIds : List String) :
    List Status :=
  statusMap ++ (GetUserStatusesByIds.removeFound statusMap missingUserIds 0).map offlineRecord

/-- `GetUserStatusesByIds`. -/
def GetUserStatusesByIds (env : Env σ) (w : World σ) (userIds : List String) :
    Except AppError (List Status) × World σ :=
  let acc := userIds.foldl (GetUserStatusesByIds.lookup env) ([], [], w)
  let statusMap := acc.1
  let missingUserIds := acc.2.1
  let w := acc.2.2
  if missingUserIds.length > 0 then
    match env.store.statusGetByIds w.store missingUserIds with
    | .error err => (.error err, w)
    | .ok statuses =>
      let w := statuses.foldl (AddStatusCache env) w
      (.ok (GetUserStatusesByIds.complete (statusMap ++ statuses) missingUserIds), w)
  else
    (.ok (GetUserStatusesByIds.complete statusMap missingUserIds), w)

/-! ## Test doubles for the store interface -/

/-- An in-memory store: the persisted records, newest first.  Every write
succeeds; `Get` fails for a user without a record. -/
def memStore : Store (List Status) where
  statusGet s userId :=
    match s.find? (fun r => r.UserId == userId) with
    | some r => .ok r
    | none => .error { Id := "store.sql_status.get.missing.app_error" }
  statusGetByIds s userIds := .ok (s.filter (fun r => userIds.contains r.UserId))
  statusSaveOrUpdate s status := (status :: s.filter (fun r => r.UserId != status.UserId), none)
  statusUpdateLastActivityAt s userId t :=
    (s.map (fun r => if r.UserId == userId then { r with LastActivityAt := t } else r), none)
  sessionUpdateLastActivityAt s _ _ := (s, none)

/-- A store whose writes all fail and leave the records as they were. -/
def downStore : Store (List Status) where
  statusGet := memStore.statusGet
  statusGetByIds := memStore.statusGetByIds
  statusSaveOrUpdate s _ := (s, some { Id := "store.sql_status.save.app_error" })
  statusUpdateLastActivityAt s _ _ := (s, some { Id := "store.sql_status.update.app_error" })
  sessionUpdateLastActivityAt s _ _ := (s, some { Id := "store.sql_session.update.app_error" })

/-- A store that is unreachable: every read and every write fails. -/
def brokenStore : Store (List Status) where
  statusGet _ _ := .error { Id := "store.sql_status.get.app_error" }
  statusGetByIds _ _ := .error { Id := "store.sql_status.get_by_ids.app_error" }
  statusSaveOrUpdate := downStore.statusSaveOrUpdate
  statusUpdateLastActivityAt := downStore.statusUpdateLastActivityAt
  sessionUpdateLastActivityAt := downStore.sessionUpdateLastActivityAt

/-- An environment over a store, with a two-minute update interval, a
five-minute away timeout, and no cluster or metrics interface. -/
def testEnv (store : Store (List Status)) : Env (List Status) :=
  { store := store, STATUS_MIN_UPDATE_TIME := 120000, UserStatusAwayTimeout := 300,
    cluster := false, metrics := false }

/-- A world with an empty cache of capacity `size` over the given records. -/
def testWorld (size : Nat) (records : List Status) : World (List Status) :=
  { statusCache := Cache.NewLru size, store := records, log := [] }

/-- A world for the batch reads: `u1` is cached, `u2` has a record in the
store only, every other user has no record. -/
def batchWorld : World (List Status) :=
  { statusCache := { size := 2, entries := [("u1", ⟨"u1", "online", false, 1, ""⟩)] },
    store := [⟨"u2", "away", false, 5, ""⟩], log := [] }

/-! ## Vocabulary of the statements -/

/-- The current record of a user, as `GetStatus` returns it: the cached
record, else the record of the store, else the store's failure. -/
def current (env : Env σ) (w : World σ) (userId : String) : Except AppError Status :=
  (GetStatus env w userId).1

/-- The precedence rule: the current record is readable and manually set, and
the call is not manual. -/
def blocked (env : Env σ) (w : World σ) (userId : String) (manual : Bool) : Bool :=
  match current env w userId with
  | .ok status => status.Manual && !manual
  | .error _ => false

/-- The prior record of a user, a missing record counting as `OFFLINE`, not
manual, with a zero activity timestamp. -/
def prior (env : Env σ) (w : World σ) (userId : String) : Status :=
  match current env w userId with
  | .ok status => status
  | .error _ =>
    { UserId := userId, Status := STATUS_OFFLINE, Manual := false, LastActivityAt := 0,
      ActiveChannel := "" }

/-- The call that led from `w` to `w2` was a no-op: the cache holds the same
entries (as a mapping and as a collection; only their recency order may
differ), the store is in the same state, and nothing was issued. -/
def Unchanged (w w2 : World σ) : Prop :=
  (∀ k, w2.statusCache.peek k = w.statusCache.peek k) ∧
  w2.statusCache.entries.Perm w.statusCache.entries ∧
  w2.statusCache.size = w.statusCache.size ∧
  w2.store = w.store ∧
  w2.log = w.log

/-- The test of line 181, on the record about to be written and the old
values. -/
def persistTest (env : Env σ) (status : Status) (oldStatus : String) (oldTime : Int)
    (oldManual : Bool) : Bool :=
  status.Status != oldStatus || status.Manual != oldManual
    || decide (sub64 status.LastActivityAt oldTime > env.STATUS_MIN_UPDATE_TIME)

/-- The record `SetStatusAwayIfNeeded` works on: the current record, or the
synthesized offline record of line 232. -/
def awayBase (env : Env σ) (w : World σ) (u : String) (manual : Bool) : Status :=
  match current env w u with
  | .ok status => status
  | .error _ =>
    { UserId := u, Status := STATUS_OFFLINE, Manual := manual, LastActivityAt := 0,
      ActiveChannel := "" }

/-- The record `SetStatusOnline` writes when it is not blocked: the prior
record (a missing one being synthesized) set to `ONLINE`, not manual, active
now. -/
def onlineRecord (env : Env σ) (w : World σ) (u : String) (now : Int) : Status :=
  { prior env w u with Status := STATUS_ONLINE, Manual := false, LastActivityAt := now }

/-- The persistence test of line 181 in terms of the prior record: the state
changed, or the manual flag changed, or more than the minimum update interval
has elapsed. -/
def mustPersist (env : Env σ) (w : World σ) (u : String) (now : Int) : Bool :=
  STATUS_ONLINE != (prior env w u).Status || false != (prior env w u).Manual
    || decide (sub64 now (prior env w u).LastActivityAt > env.STATUS_MIN_UPDATE_TIME)

/-- There was a readable prior record and its state was `ONLINE`. -/
def wasOnline (env : Env σ) (w : World σ) (u : String) : Bool :=
  match current env w u with
  | .ok status => status.Status == STATUS_ONLINE
  | .error _ => false

/-- The call that led from `w` to `w2` moved `U` to `AWAY`: the cache holds for
`U` a record with state `AWAY`, the given manual flag and no active channel,
the status writes issued are exactly one `SaveOrUpdate` of that record, and
exactly one event was published: the `status_change` event of user `U` with
`status` = "away" and `user_id` = `U`. -/
def AwayTransition (w w2 : World σ) (U : String) (manual : Bool) : Prop :=
  ∃ r, w2.statusCache.peek U = some r ∧
    r.Status = STATUS_AWAY ∧ r.Manual = manual ∧ r.ActiveChannel = "" ∧
    ∃ d, w2.log = w.log ++ d ∧
      d.filter Effect.isStatusWrite = [.statusSaveOrUpdate r] ∧
      d.filter Effect.isPublish
        = [.publish
          { Event := "status_change", TeamId := "", ChannelId := "", UserId := U,
            Data := [("status", "away"), ("user_id", U)] }]

/-- The record the store returned for `u`: the last one in the answer, which is
the one whose state `GetStatusesByIds` leaves in the map. -/
def lastFor (statuses : List Status) (u : String) : Option Status :=
  statuses.reverse.find? (fun s => s.UserId == u)

/-- The identifiers of a request that miss the cache, in request order: the
`missingUserIds` of both batch reads. -/
def uncached (w : World σ) (userIds : List String) : List String :=
  userIds.filter (fun u => (w.statusCache.peek u).isNone)

/-- The cached records of a request, in request order. -/
def cachedRecords (w : World σ) (userIds : List String) : List Status :=
  userIds.filterMap (fun u => w.statusCache.peek u)

/-! ## Lemmas on the cache -/

theorem find?_eraseP_of_disjoint {α : Type} (p q : α → Bool) (l : List α)
    (h : ∀ x, p x = true → q x = false) : (l.eraseP p).find? q = l.find? q := by
  induction l with
  | nil => rfl
  | cons a l ih =>
    by_cases hp : p a = true
    · simp [List.eraseP_cons, hp, List.find?_cons, h a hp]
    · simp [List.eraseP_cons, hp, List.find?_cons, ih]

theorem Cache.Get_fst (c : Cache) (k : String) : (c.Get k).1 = c.peek k := by
  unfold Cache.Get Cache.peek
  cases c.entries.find? (fun e => e.1 == k) <;> rfl

theorem Cache.Get_size (c : Cache) (k : String) : (c.Get k).2.size = c.size := by
  unfold Cache.Get
  cases c.entries.find? (fun e => e.1 == k) <;> rfl

theorem Cache.Get_perm (c : Cache) (k : String) : (c.Get k).2.entries.Perm c.entries := by
  unfold Cache.Get
  cases h : c.entries.find? (fun e => e.1 == k) with
  | none => exact List.Perm.refl _
  | some e =>
    have hmem : e ∈ c.entries := List.mem_of_find?_eq_some h
    have hp : (fun e : String × Status => e.1 == k) e = true :=
      List.find?_some (p := fun e : String × Status => e.1 == k) h
    obtain ⟨a, l₁, l₂, h1, h2, h3, h4⟩ :=
      List.exists_of_eraseP (p := fun e : String × Status => e.1 == k) hmem hp
    have : a = e := by
      rw [h3, List.find?_append] at h
      have hnone : l₁.find? (fun e => e.1 == k) = none := by
        rw [List.find?_eq_none]
        intro x hx
        exact h1 x hx
      rw [hnone] at h
      simpa [List.find?_cons, h2] using h
    subst this
    show (a :: c.entries.eraseP fun e => e.1 == k).Perm c.entries
    rw [h4]
    conv => rhs; rw [h3]
    exact List.perm_middle.symm

theorem Cache.peek_Get (c : Cache) (k k2 : String) : (c.Get k).2.peek k2 = c.peek k2 := by
  unfold Cache.Get
  cases h : c.entries.find? (fun e => e.1 == k) with
  | none => rfl
  | some e =>
    have hp : (e.1 == k) = true :=
      List.find?_some (p := fun e : String × Status => e.1 == k) h
    have hk : e.1 = k := by simpa using hp
    show Option.map _ (List.find? _ (e :: c.entries.eraseP fun e => e.1 == k)) = c.peek k2
    by_cases hk2 : k2 = k
    · subst hk2
      simp [List.find?_cons, hk, Cache.peek, h]
    · have hne : (e.1 == k2) = false := by
        simp [hk]
        exact fun h => hk2 h.symm
      rw [List.find?_cons, hne]
      unfold Cache.peek
      rw [find?_eraseP_of_disjoint]
      intro x hx
      have : x.1 = k := by simpa using hx
      simp [this]
      exact fun h => hk2 h.symm

theorem Cache.Add_size (c : Cache) (k : String) (v : Status) : (c.Add k v).size = c.size := by
  unfold Cache.Add
  split
  · rfl
  · dsimp only
    split <;> rfl

theorem Cache.peek_Add_self (c : Cache) (k : String) (v : Status) (h : 0 < c.size) :
    (c.Add k v).peek k = some v := by
  unfold Cache.Add Cache.peek
  split
  · simp [List.find?_cons]
  · dsimp only
    split
    · rename_i hlen
      cases hc : c.entries with
      | nil => simp [hc] at hlen; omega
      | cons a l =>
        simp [List.dropLast, List.find?_cons]
    · simp [List.find?_cons]

/-! ## Lemmas on the read path -/

theorem GetStatusFromCache_fst (w : World σ) (u : String) :
    (GetStatusFromCache w u).1 = w.statusCache.peek u := by
  unfold GetStatusFromCache
  rw [← Cache.Get_fst]
  rcases w.statusCache.Get u with ⟨_ | s, c⟩ <;> rfl

theorem GetStatusFromCache_snd (w : World σ) (u : String) :
    (GetStatusFromCache w u).2 = { w with statusCache := (w.statusCache.Get u).2 } := by
  unfold GetStatusFromCache
  rcases w.statusCache.Get u with ⟨_ | s, c⟩ <;> rfl

theorem GetStatus_snd (env : Env σ) (w : World σ) (u : String) :
    (GetStatus env w u).2 = { w with statusCache := (w.statusCache.Get u).2 } := by
  unfold GetStatus
  rw [← GetStatusFromCache_snd]
  rcases GetStatusFromCache w u with ⟨_ | s, w1⟩
  · dsimp only
    cases env.store.statusGet w1.store u <;> rfl
  · rfl

theorem current_of_cached (env : Env σ) (w : World σ) (u : String) (s : Status)
    (h : w.statusCache.peek u = some s) : current env w u = .ok s := by
  unfold current GetStatus
  have h1 := GetStatusFromCache_fst w u
  rw [h] at h1
  rcases hg : GetStatusFromCache w u with ⟨_ | s2, w1⟩
  · rw [hg] at h1; cases h1
  · rw [hg] at h1
    cases h1
    rfl

theorem current_of_uncached (env : Env σ) (w : World σ) (u : String)
    (h : w.statusCache.peek u = none) : current env w u = env.store.statusGet w.store u := by
  unfold current GetStatus
  have h1 := GetStatusFromCache_fst w u
  have h2 := GetStatusFromCache_snd w u
  rw [h] at h1
  rcases hg : GetStatusFromCache w u with ⟨_ | s2, w1⟩
  · rw [hg] at h2
    dsimp only at h2 ⊢
    subst h2
    dsimp only
    cases env.store.statusGet w.store u <;> rfl
  · rw [hg] at h1; cases h1

theorem GetStatus_unchanged (env : Env σ) (w : World σ) (u : String) :
    Unchanged w (GetStatus env w u).2 := by
  rw [GetStatus_snd]
  exact ⟨fun k => Cache.peek_Get _ _ _, Cache.Get_perm _ _, Cache.Get_size _ _, rfl, rfl⟩

theorem GetStatus_eq (env : Env σ) (w : World σ) (u : String) :
    GetStatus env w u = (current env w u, { w with statusCache := (w.statusCache.Get u).2 }) := by
  rw [← GetStatus_snd]
  rfl

/-- A record read for `u` carries the id `u` whenever the cache stores records
under their own id and the store answers `Get` with the record asked for. -/
theorem current_userId (env : Env σ) (w : World σ) (u : String) (hk : w.statusCache.Keyed)
    (hs : ∀ r, env.store.statusGet w.store u = .ok r → r.UserId = u) :
    ∀ r, current env w u = .ok r → r.UserId = u := by
  intro r hr
  cases hp : w.statusCache.peek u with
  | none =>
    rw [current_of_uncached env w u hp] at hr
    exact hs r hr
  | some s =>
    rw [current_of_cached env w u s hp] at hr
    cases hr
    unfold Cache.peek at hp
    cases hf : w.statusCache.entries.find? (fun e => e.1 == u) with
    | none => rw [hf] at hp; cases hp
    | some e =>
      rw [hf] at hp
      cases hp
      have hmem := List.mem_of_find?_eq_some hf
      have hp2 : (e.1 == u) = true :=
        List.find?_some (p := fun e : String × Status => e.1 == u) hf
      rw [hk e hmem]
      simpa using hp2

/-! ## Lemmas on the write path -/

theorem AddStatusCache_cache (env : Env σ) (w : World σ) (s : Status) :
    (AddStatusCache env w s).statusCache = w.statusCache.Add s.UserId s := by
  unfold AddStatusCache AddStatusCacheSkipClusterSend World.emit
  split <;> rfl

theorem AddStatusCache_store (env : Env σ) (w : World σ) (s : Status) :
    (AddStatusCache env w s).store = w.store := by
  unfold AddStatusCache AddStatusCacheSkipClusterSend World.emit
  split <;> rfl

theorem AddStatusCache_log (env : Env σ) (w : World σ) (s : Status) :
    (AddStatusCache env w s).log
      = w.log ++ (if env.cluster then [Effect.clusterUpdateStatus s] else []) := by
  unfold AddStatusCache AddStatusCacheSkipClusterSend World.emit
  split <;> simp

theorem saveAndPublish_cache (env : Env σ) (w : World σ) (s : Status) (state : String) :
    (saveAndPublish env w s state).statusCache = w.statusCache.Add s.UserId s := by
  unfold saveAndPublish World.emit
  dsimp only
  split <;> simp [AddStatusCache_cache, World.emit]

theorem saveAndPublish_log (env : Env σ) (w : World σ) (s : Status) (state : String) :
    ∃ d, (saveAndPublish env w s state).log = w.log ++ d ∧
      d.filter Effect.isStatusWrite = [.statusSaveOrUpdate s] ∧
      d.filter Effect.isSaveOrUpdate = [.statusSaveOrUpdate s] ∧
      d.filter Effect.isPublish = [.publish (statusChangeEvent s.UserId state)] := by
  unfold saveAndPublish World.emit
  dsimp only
  cases env.store.statusSaveOrUpdate (AddStatusCache env w s).store s with
  | mk st err =>
    cases err with
    | none =>
      refine ⟨(if env.cluster then [Effect.clusterUpdateStatus s] else [])
        ++ [.statusSaveOrUpdate s] ++ [.publish (statusChangeEvent s.UserId state)], ?_, ?_, ?_, ?_⟩
      · simp [AddStatusCache_log, World.emit]
      all_goals cases env.cluster <;> simp [Effect.isStatusWrite, Effect.isSaveOrUpdate, Effect.isPublish]
    | some e =>
      refine ⟨(if env.cluster then [Effect.clusterUpdateStatus s] else [])
        ++ [.statusSaveOrUpdate s] ++ [.logError "api.status.save_status.error" e]
        ++ [.publish (statusChangeEvent s.UserId state)], ?_, ?_, ?_, ?_⟩
      · simp [AddStatusCache_log, World.emit]
      all_goals cases env.cluster <;> simp [Effect.isStatusWrite, Effect.isSaveOrUpdate, Effect.isPublish]

theorem filter_logErrors (p : Effect → Bool) (hp : ∀ k a, p (.logError k a) = false)
    (errs : List Effect) (h : ∀ e ∈ errs, ∃ k a, e = Effect.logError k a) :
    errs.filter p = [] := by
  rw [List.filter_eq_nil_iff]
  intro e he
  obtain ⟨k, a, rfl⟩ := h e he
  simp [hp]

theorem SetStatusOnline.persist_cache (env : Env σ) (w : World σ) (sessionId : String)
    (status : Status) (broadcast : Bool) :
    (SetStatusOnline.persist env w sessionId status broadcast).statusCache = w.statusCache := by
  unfold SetStatusOnline.persist World.emit
  dsimp only
  split <;> split <;> rfl

theorem SetStatusOnline.persist_log (env : Env σ) (w : World σ) (sessionId : String)
    (status : Status) (broadcast : Bool) :
    ∃ errs, (∀ e ∈ errs, ∃ k a, e = Effect.logError k a) ∧
      (SetStatusOnline.persist env w sessionId status broadcast).log
        = w.log ++ ([Effect.sessionUpdateLastActivityAt sessionId status.LastActivityAt,
            if broadcast then Effect.statusSaveOrUpdate status
            else Effect.statusUpdateLastActivityAt status.UserId status.LastActivityAt]
          ++ errs) := by
  unfold SetStatusOnline.persist World.emit
  dsimp only
  split <;> split
  · rename_i _ e2 _ _ e1 _
    exact ⟨[.logError "api.status.last_activity.error" e1,
      .logError "api.status.save_status.error" e2], by simp, by simp⟩
  · rename_i _ e2 _ _ _
    exact ⟨[.logError "api.status.save_status.error" e2], by simp, by simp⟩
  · rename_i _ _ _ e1 _
    exact ⟨[.logError "api.status.last_activity.error" e1], by simp, by simp⟩
  · exact ⟨[], by simp, by simp⟩

theorem SetStatusOnline.finish_cache (env : Env σ) (w : World σ) (sessionId : String)
    (status : Status) (oldStatus : String) (oldTime : Int) (oldManual : Bool) (broadcast : Bool) :
    (SetStatusOnline.finish env w sessionId status oldStatus oldTime oldManual
      broadcast).statusCache = w.statusCache.Add status.UserId status := by
  unfold SetStatusOnline.finish World.emit
  dsimp only
  rw [← AddStatusCache_cache env w status]
  split <;> split <;> simp [SetStatusOnline.persist_cache]

theorem SetStatusOnline.finish_log (env : Env σ) (w : World σ) (sessionId : String)
    (status : Status) (oldStatus : String) (oldTime : Int) (oldManual : Bool) (broadcast : Bool) :
    ∃ errs, (∀ e ∈ errs, ∃ k a, e = Effect.logError k a) ∧
      (SetStatusOnline.finish env w sessionId status oldStatus oldTime oldManual broadcast).log
        = w.log ++ ((if env.cluster then [Effect.clusterUpdateStatus status] else [])
          ++ ((if persistTest env status oldStatus oldTime oldManual then
                [Effect.sessionUpdateLastActivityAt sessionId status.LastActivityAt,
                 if broadcast then Effect.statusSaveOrUpdate status
                 else Effect.statusUpdateLastActivityAt status.UserId status.LastActivityAt]
                ++ errs
              else [])
          ++ (if broadcast then [Effect.publish (statusChangeEvent status.UserId STATUS_ONLINE)]
              else []))) := by
  obtain ⟨errs, herrs, hlog⟩ :=
    SetStatusOnline.persist_log env (AddStatusCache env w status) sessionId status broadcast
  unfold SetStatusOnline.finish persistTest World.emit
  dsimp only
  by_cases hc : (status.Status != oldStatus || status.Manual != oldManual
        || decide (sub64 status.LastActivityAt oldTime > env.STATUS_MIN_UPDATE_TIME)) = true
  · refine ⟨errs, herrs, ?_⟩
    rw [if_pos hc, if_pos hc]
    cases broadcast <;> simp [hlog, AddStatusCache_log]
  · refine ⟨[], by simp, ?_⟩
    rw [if_neg hc, if_neg hc]
    cases broadcast <;> simp [AddStatusCache_log]

/-! ## The transitions in terms of the current record -/

theorem SetStatusOnline_blocked (env : Env σ) (w : World σ) (now : Int) (u sessionId : String)
    (manual : Bool) (h : blocked env w u manual = true) :
    SetStatusOnline env w now u sessionId manual = (GetStatus env w u).2 := by
  unfold SetStatusOnline
  unfold blocked at h
  rw [GetStatus_eq]
  cases hc : current env w u with
  | error e => rw [hc] at h; cases h
  | ok st =>
    rw [hc] at h
    dsimp only at h ⊢
    rw [if_pos h]

theorem SetStatusOnline_eq (env : Env σ) (w : World σ) (now : Int) (u sessionId : String)
    (manual : Bool) (h : blocked env w u manual = false) :
    SetStatusOnline env w now u sessionId manual
      = SetStatusOnline.finish env (GetStatus env w u).2 sessionId
          { prior env w u with Status := STATUS_ONLINE, Manual := false, LastActivityAt := now }
          (prior env w u).Status (prior env w u).LastActivityAt (prior env w u).Manual
          ((prior env w u).Status != STATUS_ONLINE) := by
  unfold SetStatusOnline
  unfold blocked at h
  unfold prior
  rw [GetStatus_eq]
  cases hc : current env w u with
  | error e => rfl
  | ok st =>
    rw [hc] at h
    dsimp only at h ⊢
    rw [if_neg (by simp [h])]

theorem SetStatusOffline_blocked (env : Env σ) (w : World σ) (now : Int) (u : String)
    (manual : Bool) (h : blocked env w u manual = true) :
    SetStatusOffline env w now u manual = (GetStatus env w u).2 := by
  unfold SetStatusOffline
  unfold blocked current at h
  dsimp only
  rw [if_pos h]

theorem SetStatusOffline_eq (env : Env σ) (w : World σ) (now : Int) (u : String)
    (manual : Bool) (h : blocked env w u manual = false) :
    SetStatusOffline env w now u manual
      = saveAndPublish env (GetStatus env w u).2
          { UserId := u, Status := STATUS_OFFLINE, Manual := manual, LastActivityAt := now,
            ActiveChannel := "" } STATUS_OFFLINE := by
  unfold SetStatusOffline
  unfold blocked current at h
  dsimp only
  rw [if_neg (by simp [h])]

theorem ite_chain {α : Type} (a b c : Prop) [Decidable a] [Decidable b] [Decidable c]
    (x y : α) :
    (if a then x else if b then x else if c then x else y) = if a ∨ b ∨ c then x else y := by
  by_cases ha : a <;> by_cases hb : b <;> by_cases hc : c <;> simp [ha, hb, hc]

theorem SetStatusAwayIfNeeded_eq (env : Env σ) (w : World σ) (now : Int) (u : String)
    (manual : Bool) :
    SetStatusAwayIfNeeded env w now u manual
      = if (!manual && (awayBase env w u manual).Manual) = true
          ∨ (!manual && (awayBase env w u manual).Status == STATUS_AWAY) = true
          ∨ (!manual && !IsUserAway env now (awayBase env w u manual).LastActivityAt) = true then
          (GetStatus env w u).2
        else
          saveAndPublish env (GetStatus env w u).2
            { awayBase env w u manual with
              Status := STATUS_AWAY, Manual := manual, ActiveChannel := "" } STATUS_AWAY := by
  unfold SetStatusAwayIfNeeded awayBase current
  dsimp only
  generalize (GetStatus env w u).1 = r
  generalize (GetStatus env w u).2 = w1
  cases r <;> dsimp only <;> exact ite_chain _ _ _ _ _

theorem current_congr (env : Env σ) (w w2 : World σ) (u : String)
    (hp : w2.statusCache.peek u = w.statusCache.peek u) (hs : w2.store = w.store) :
    current env w2 u = current env w u := by
  cases h : w.statusCache.peek u with
  | none =>
    rw [current_of_uncached env w u h, current_of_uncached env w2 u (hp.trans h), hs]
  | some s =>
    rw [current_of_cached env w u s h, current_of_cached env w2 u s (hp.trans h)]

theorem current_of_unchanged (env : Env σ) (w w2 : World σ) (u : String) (h : Unchanged w w2) :
    current env w2 u = current env w u :=
  current_congr env w w2 u (h.1 u) h.2.2.2.1

theorem blocked_manual (env : Env σ) (w : World σ) (u : String) :
    blocked env w u true = false := by
  unfold blocked
  cases current env w u <;> simp

theorem blocked_of_manual (env : Env σ) (w : World σ) (u : String) (r : Status)
    (hr : current env w u = .ok r) (hm : r.Manual = true) : blocked env w u false = true := by
  unfold blocked
  rw [hr]
  simp [hm]

theorem GetStatus_peek (env : Env σ) (w : World σ) (u k : String) :
    (GetStatus env w u).2.statusCache.peek k = w.statusCache.peek k :=
  (GetStatus_unchanged env w u).1 k

theorem GetStatus_size (env : Env σ) (w : World σ) (u : String) :
    (GetStatus env w u).2.statusCache.size = w.statusCache.size :=
  (GetStatus_unchanged env w u).2.2.1

theorem GetStatus_log (env : Env σ) (w : World σ) (u : String) :
    (GetStatus env w u).2.log = w.log :=
  (GetStatus_unchanged env w u).2.2.2.2

theorem SetStatusOffline_peek (env : Env σ) (w : World σ) (now : Int) (u : String)
    (manual : Bool) (hsize : 0 < w.statusCache.size) (h : blocked env w u manual = false) :
    (SetStatusOffline env w now u manual).statusCache.peek u
      = some { UserId := u, Status := STATUS_OFFLINE, Manual := manual, LastActivityAt := now,
               ActiveChannel := "" } := by
  rw [SetStatusOffline_eq env w now u manual h, saveAndPublish_cache]
  exact Cache.peek_Add_self _ _ _ (by rw [GetStatus_size]; exact hsize)

theorem SetStatusOffline_size (env : Env σ) (w : World σ) (now : Int) (u : String)
    (manual : Bool) :
    (SetStatusOffline env w now u manual).statusCache.size = w.statusCache.size := by
  cases h : blocked env w u manual with
  | true => rw [SetStatusOffline_blocked env w now u manual h, GetStatus_size]
  | false =>
    rw [SetStatusOffline_eq env w now u manual h, saveAndPublish_cache, Cache.Add_size,
      GetStatus_size]

/-! ## Manual stickiness -/

/-- C1. Manual stickiness.  When the current record of `U` (the cached record,
else the record of the store) has `Manual = true`, each of `SetStatusOnline`,
`SetStatusOffline` and `SetStatusAwayIfNeeded` called with `manual = false` is a
no-op: the cache holds the same entries, the store state is the same and
nothing is issued (no store write, no event).  In particular, from any world
with a cache of positive capacity, `SetStatusOffline(U, manual = true)`
followed by `SetStatusOnline(U, session, manual = false)` leaves `GetStatus(U)`
reporting `OFFLINE` with `Manual = true`. -/
theorem manual_stickiness (env : Env σ) (w w0 : World σ) (now t1 t2 : Int)
    (U sessionId : String) (r : Status)
    (hr : current env w U = .ok r) (hm : r.Manual = true)
    (h0 : 0 < w0.statusCache.size) :
    Unchanged w (SetStatusOnline env w now U sessionId false) ∧
    Unchanged w (SetStatusOffline env w now U false) ∧
    Unchanged w (SetStatusAwayIfNeeded env w now U false) ∧
    ∃ r2, current env
        (SetStatusOnline env (SetStatusOffline env w0 t1 U true) t2 U sessionId false) U
          = .ok r2 ∧
      r2.Status = STATUS_OFFLINE ∧ r2.Manual = true := by
  have hb := blocked_of_manual env w U r hr hm
  refine ⟨?_, ?_, ?_, ?_⟩
  · rw [SetStatusOnline_blocked env w now U sessionId false hb]
    exact GetStatus_unchanged env w U
  · rw [SetStatusOffline_blocked env w now U false hb]
    exact GetStatus_unchanged env w U
  · rw [SetStatusAwayIfNeeded_eq]
    have hbase : awayBase env w U false = r := by
      unfold awayBase
      rw [hr]
    rw [hbase, if_pos (Or.inl (by simp [hm]))]
    exact GetStatus_unchanged env w U
  · have hp := SetStatusOffline_peek env w0 t1 U true h0 (blocked_manual env w0 U)
    have hc := current_of_cached env _ U _ hp
    have hb1 := blocked_of_manual env _ U _ hc rfl
    rw [SetStatusOnline_blocked env _ t2 U sessionId false hb1]
    refine ⟨⟨U, STATUS_OFFLINE, true, t1, ""⟩, ?_, rfl, rfl⟩
    rw [current_of_unchanged env _ _ U (GetStatus_unchanged env _ U)]
    exact hc

/-- Witness of C1 (`manual_stickiness`): a user whose stored record is a manual
"away", and an empty world with a cache of capacity 2. -/
theorem manual_stickiness_witness :
    current (testEnv memStore) (testWorld 2 [⟨"u1", "away", true, 5, ""⟩]) "u1"
      = .ok ⟨"u1", "away", true, 5, ""⟩ ∧
    Unchanged (testWorld 2 [⟨"u1", "away", true, 5, ""⟩])
      (SetStatusOnline (testEnv memStore) (testWorld 2 [⟨"u1", "away", true, 5, ""⟩])
        1000 "u1" "s1" false) ∧
    ∃ r2, current (testEnv memStore)
        (SetStatusOnline (testEnv memStore)
          (SetStatusOffline (testEnv memStore) (testWorld 2 []) 10 "u1" true) 20 "u1" "s1" false)
        "u1" = .ok r2 ∧
      r2.Status = STATUS_OFFLINE ∧ r2.Manual = true :=
  have h := manual_stickiness (testEnv memStore) (testWorld 2 [⟨"u1", "away", true, 5, ""⟩])
    (testWorld 2 []) 1000 10 20 "u1" "s1" ⟨"u1", "away", true, 5, ""⟩ rfl rfl
    (by decide)
  ⟨rfl, h.1, h.2.2.2⟩

/-! ## `SetStatusOnline` -/

theorem prior_userId (env : Env σ) (w : World σ) (u : String)
    (hid : ∀ r, current env w u = .ok r → r.UserId = u) : (prior env w u).UserId = u := by
  unfold prior
  cases h : current env w u with
  | error e => rfl
  | ok r => exact hid r h

theorem SetStatusOnline_cache (env : Env σ) (w : World σ) (now : Int) (u sessionId : String)
    (manual : Bool) (hnb : blocked env w u manual = false) :
    (SetStatusOnline env w now u sessionId manual).statusCache
      = (GetStatus env w u).2.statusCache.Add (prior env w u).UserId (onlineRecord env w u now) := by
  rw [SetStatusOnline_eq env w now u sessionId manual hnb, SetStatusOnline.finish_cache]
  rfl

theorem SetStatusOnline_peek (env : Env σ) (w : World σ) (now : Int) (u sessionId : String)
    (manual : Bool) (hsize : 0 < w.statusCache.size)
    (hid : ∀ r, current env w u = .ok r → r.UserId = u)
    (hnb : blocked env w u manual = false) :
    (SetStatusOnline env w now u sessionId manual).statusCache.peek u
      = some (onlineRecord env w u now) := by
  rw [SetStatusOnline_cache env w now u sessionId manual hnb, prior_userId env w u hid]
  exact Cache.peek_Add_self _ _ _ (by rw [GetStatus_size]; exact hsize)

theorem SetStatusOnline_size (env : Env σ) (w : World σ) (now : Int) (u sessionId : String)
    (manual : Bool) :
    (SetStatusOnline env w now u sessionId manual).statusCache.size = w.statusCache.size := by
  cases h : blocked env w u manual with
  | true => rw [SetStatusOnline_blocked env w now u sessionId manual h, GetStatus_size]
  | false =>
    rw [SetStatusOnline_cache env w now u sessionId manual h, Cache.Add_size, GetStatus_size]

/-- What a call of `SetStatusOnline` that is not blocked issues: one session
write and one status write exactly when the persistence test holds, one event
exactly when the prior state was not `ONLINE`. -/
theorem SetStatusOnline_issued (env : Env σ) (w : World σ) (now : Int) (u sessionId : String)
    (manual : Bool) (hnb : blocked env w u manual = false) :
    ∃ d, (SetStatusOnline env w now u sessionId manual).log = w.log ++ d ∧
      d.filter Effect.isPublish
        = (if (prior env w u).Status != STATUS_ONLINE then
            [.publish (statusChangeEvent (prior env w u).UserId STATUS_ONLINE)] else []) ∧
      d.filter Effect.isStatusWrite
        = (if mustPersist env w u now then
            [if (prior env w u).Status != STATUS_ONLINE then
               .statusSaveOrUpdate (onlineRecord env w u now)
             else .statusUpdateLastActivityAt (prior env w u).UserId now] else []) ∧
      d.filter Effect.isSessionWrite
        = (if mustPersist env w u now then [.sessionUpdateLastActivityAt sessionId now]
           else []) := by
  rw [SetStatusOnline_eq env w now u sessionId manual hnb]
  obtain ⟨errs, herrs, hlog⟩ := SetStatusOnline.finish_log env (GetStatus env w u).2 sessionId
    { prior env w u with Status := STATUS_ONLINE, Manual := false, LastActivityAt := now }
    (prior env w u).Status (prior env w u).LastActivityAt (prior env w u).Manual
    ((prior env w u).Status != STATUS_ONLINE)
  rw [GetStatus_log] at hlog
  refine ⟨_, hlog, ?_, ?_, ?_⟩
  all_goals
    have hp : persistTest env
        { prior env w u with Status := STATUS_ONLINE, Manual := false, LastActivityAt := now }
        (prior env w u).Status (prior env w u).LastActivityAt (prior env w u).Manual
        = mustPersist env w u now := rfl
    rw [hp]
    simp only [List.filter_append]
    have he1 := filter_logErrors Effect.isPublish (fun _ _ => rfl) errs herrs
    have he2 := filter_logErrors Effect.isStatusWrite (fun _ _ => rfl) errs herrs
    have he3 := filter_logErrors Effect.isSessionWrite (fun _ _ => rfl) errs herrs
    cases env.cluster <;> cases mustPersist env w u now <;>
      cases ((prior env w u).Status != STATUS_ONLINE) <;>
      simp [List.filter_append, he1, he2, he3, Effect.isPublish, Effect.isStatusWrite,
        Effect.isSessionWrite, onlineRecord]

theorem wasOnline_eq (env : Env σ) (w : World σ) (u : String) :
    ((prior env w u).Status != STATUS_ONLINE) = !wasOnline env w u := by
  unfold prior wasOnline
  cases current env w u with
  | error e => exact (by decide : ((STATUS_OFFLINE != STATUS_ONLINE) = !false))
  | ok r => simp [bne]

theorem SetStatusOnline_post (env : Env σ) (w : World σ) (now : Int) (U sessionId : String)
    (manual : Bool) (hsize : 0 < w.statusCache.size)
    (hid : ∀ r, current env w U = .ok r → r.UserId = U)
    (hnb : blocked env w U manual = false) :
    (∃ r2, current env (SetStatusOnline env w now U sessionId manual) U = .ok r2 ∧
      r2.Status = STATUS_ONLINE ∧ r2.Manual = false ∧ r2.LastActivityAt = now) ∧
    ∃ d, (SetStatusOnline env w now U sessionId manual).log = w.log ++ d ∧
      d.filter Effect.isPublish
        = if wasOnline env w U then []
          else [.publish (statusChangeEvent U STATUS_ONLINE)] := by
  constructor
  · exact ⟨_, current_of_cached env _ U _
      (SetStatusOnline_peek env w now U sessionId manual hsize hid hnb), rfl, rfl, rfl⟩
  · obtain ⟨d, hd, hpub, -, -⟩ := SetStatusOnline_issued env w now U sessionId manual hnb
    refine ⟨d, hd, ?_⟩
    rw [hpub, wasOnline_eq, prior_userId env w U hid]
    cases wasOnline env w U <;> rfl

/-- C2. Postcondition of `SetStatusOnline`.  For a cache of positive capacity
and a user whose readable record carries the user's own id: whenever the call
is not blocked by the precedence rule, a read of `U` right after the call
returns `ONLINE`, `Manual = false`, `LastActivityAt = now`, and the call
publishes exactly one `STATUS_CHANGE` event with status "online" and `U`'s id
when there was no prior record or the prior state was not `ONLINE`, and none
otherwise.  Instance: `SetStatusOffline(U, manual = true)` followed by
`SetStatusOnline(U, session, manual = true)` yields `ONLINE`, `Manual = false`
and one event. -/
theorem setStatusOnline_postcondition (env : Env σ) (w w0 : World σ) (now t1 t2 : Int)
    (U sessionId : String) (manual : Bool)
    (hsize : 0 < w.statusCache.size)
    (hid : ∀ r, current env w U = .ok r → r.UserId = U)
    (hnb : blocked env w U manual = false)
    (h0 : 0 < w0.statusCache.size) :
    ((∃ r2, current env (SetStatusOnline env w now U sessionId manual) U = .ok r2 ∧
        r2.Status = STATUS_ONLINE ∧ r2.Manual = false ∧ r2.LastActivityAt = now) ∧
      ∃ d, (SetStatusOnline env w now U sessionId manual).log = w.log ++ d ∧
        d.filter Effect.isPublish
          = if wasOnline env w U then []
            else [.publish
                { Event := "status_change", TeamId := "", ChannelId := "", UserId := U,
                  Data := [("status", "online"), ("user_id", U)] }]) ∧
    ((∃ r3, current env
          (SetStatusOnline env (SetStatusOffline env w0 t1 U true) t2 U sessionId true) U
            = .ok r3 ∧
        r3.Status = STATUS_ONLINE ∧ r3.Manual = false) ∧
      ∃ d, (SetStatusOnline env (SetStatusOffline env w0 t1 U true) t2 U sessionId true).log
          = (SetStatusOffline env w0 t1 U true).log ++ d ∧
        d.filter Effect.isPublish
          = [.publish
            { Event := "status_change", TeamId := "", ChannelId := "", UserId := U,
              Data := [("status", "online"), ("user_id", U)] }]) := by
  refine ⟨SetStatusOnline_post env w now U sessionId manual hsize hid hnb, ?_⟩
  have hp := SetStatusOffline_peek env w0 t1 U true h0 (blocked_manual env w0 U)
  have hc := current_of_cached env _ U _ hp
  have hsz : 0 < (SetStatusOffline env w0 t1 U true).statusCache.size := by
    rw [SetStatusOffline_size]; exact h0
  have hid1 : ∀ r, current env (SetStatusOffline env w0 t1 U true) U = .ok r → r.UserId = U := by
    intro r h
    rw [hc] at h
    cases h
    rfl
  obtain ⟨⟨r3, h1, h2, h3, -⟩, d, hd, hpub⟩ :=
    SetStatusOnline_post env _ t2 U sessionId true hsz hid1 (blocked_manual env _ U)
  refine ⟨⟨r3, h1, h2, h3⟩, d, hd, ?_⟩
  have hw : wasOnline env (SetStatusOffline env w0 t1 U true) U = false := by
    unfold wasOnline
    rw [hc]
    exact (by decide : (STATUS_OFFLINE == STATUS_ONLINE) = false)
  rw [hpub, hw]
  rfl

/-- Witness of C2 (`setStatusOnline_postcondition`): a user with no record
anywhere, called with `manual = false`. -/
theorem setStatusOnline_postcondition_witness :
    blocked (testEnv memStore) (testWorld 2 []) "u1" false = false ∧
    wasOnline (testEnv memStore) (testWorld 2 []) "u1" = false ∧
    (∃ r2, current (testEnv memStore)
        (SetStatusOnline (testEnv memStore) (testWorld 2 []) 1000 "u1" "s1" false) "u1" = .ok r2 ∧
      r2.Status = STATUS_ONLINE ∧ r2.Manual = false ∧ r2.LastActivityAt = 1000) ∧
    ∃ d, (SetStatusOnline (testEnv memStore) (testWorld 2 []) 1000 "u1" "s1" false).log
        = (testWorld 2 []).log ++ d ∧
      d.filter Effect.isPublish
        = if wasOnline (testEnv memStore) (testWorld 2 []) "u1" then []
          else [.publish
              { Event := "status_change", TeamId := "", ChannelId := "", UserId := "u1",
                Data := [("status", "online"), ("user_id", "u1")] }] :=
  have h := setStatusOnline_postcondition (testEnv memStore) (testWorld 2 []) (testWorld 2 [])
    1000 10 20 "u1" "s1" false (by decide) (fun r hr => by cases hr) rfl (by decide)
  ⟨rfl, rfl, h.1.1, h.1.2⟩

theorem wrap64_of_inRange (x : Int) (h1 : -2 ^ 63 ≤ x) (h2 : x < 2 ^ 63) : wrap64 x = x := by
  unfold wrap64
  rw [Int.emod_eq_of_lt (by omega) (by omega)]
  omega

/-- On `int64` the subtraction of the code is the integer difference whenever
that difference is representable. -/
theorem sub64_of_inRange (a b : Int) (h1 : -2 ^ 63 ≤ a - b) (h2 : a - b < 2 ^ 63) :
    sub64 a b = a - b :=
  wrap64_of_inRange _ h1 h2

theorem mustPersist_iff (env : Env σ) (w : World σ) (u : String) (now : Int) :
    mustPersist env w u now = true ↔
      ((prior env w u).Status ≠ STATUS_ONLINE ∨ (prior env w u).Manual ≠ false ∨
        sub64 now (prior env w u).LastActivityAt > env.STATUS_MIN_UPDATE_TIME) := by
  unfold mustPersist
  simp only [Bool.or_eq_true, bne_iff_ne, decide_eq_true_eq, ne_eq]
  constructor
  · rintro ((h | h) | h)
    · exact Or.inl (fun e => h e.symm)
    · exact Or.inr (Or.inl (fun e => h e.symm))
    · exact Or.inr (Or.inr h)
  · rintro (h | h | h)
    · exact Or.inl (Or.inl (fun e => h e.symm))
    · exact Or.inl (Or.inr (fun e => h e.symm))
    · exact Or.inr h

/-- C3, counterexample.  A user whose record is `ONLINE`, not manual and one
second old: the call is not blocked, and it issues nothing at all, so the
session's last-activity timestamp is not updated. -/
theorem session_update_skipped_by_debounce :
    blocked (testEnv memStore) (testWorld 2 [⟨"u1", "online", false, 1000, ""⟩]) "u1" false
      = false ∧
    (SetStatusOnline (testEnv memStore) (testWorld 2 [⟨"u1", "online", false, 1000, ""⟩])
      2000 "u1" "s1" false).log = [] ∧
    Effect.sessionUpdateLastActivityAt "s1" 2000 ∉
      (SetStatusOnline (testEnv memStore) (testWorld 2 [⟨"u1", "online", false, 1000, ""⟩])
        2000 "u1" "s1" false).log := by
  decide

/-- C3, amended.  The session write sits inside the debounce: a call of
`SetStatusOnline` that is not blocked issues `UpdateLastActivityAt(sessionId,
now)` on the session store exactly when the prior state was not `ONLINE`, or
the prior manual flag was set, or more than `STATUS_MIN_UPDATE_TIME` has
elapsed since the prior activity, that is exactly when it issues the durable
status write; otherwise it issues no session write. -/
theorem session_update_debounced (env : Env σ) (w : World σ) (now : Int)
    (U sessionId : String) (manual : Bool) (hnb : blocked env w U manual = false) :
    ∃ d, (SetStatusOnline env w now U sessionId manual).log = w.log ++ d ∧
      (((prior env w U).Status ≠ STATUS_ONLINE ∨ (prior env w U).Manual ≠ false ∨
          sub64 now (prior env w U).LastActivityAt > env.STATUS_MIN_UPDATE_TIME) →
        d.filter Effect.isSessionWrite = [.sessionUpdateLastActivityAt sessionId now] ∧
        (d.filter Effect.isStatusWrite).length = 1) ∧
      (¬ ((prior env w U).Status ≠ STATUS_ONLINE ∨ (prior env w U).Manual ≠ false ∨
          sub64 now (prior env w U).LastActivityAt > env.STATUS_MIN_UPDATE_TIME) →
        d.filter Effect.isSessionWrite = [] ∧ d.filter Effect.isStatusWrite = []) := by
  obtain ⟨d, hd, -, hw, hs⟩ := SetStatusOnline_issued env w now U sessionId manual hnb
  refine ⟨d, hd, ?_, ?_⟩
  · intro h
    have := (mustPersist_iff env w U now).2 h
    rw [hs, hw, this]
    exact ⟨rfl, rfl⟩
  · intro h
    have : mustPersist env w U now = false := by
      cases hm : mustPersist env w U now with
      | false => rfl
      | true => exact absurd ((mustPersist_iff env w U now).1 hm) h
    rw [hs, hw, this]
    exact ⟨rfl, rfl⟩

/-- Witness of C3 (`session_update_debounced`): the call of the counterexample,
which is not blocked and is debounced. -/
theorem session_update_debounced_witness :
    blocked (testEnv memStore) (testWorld 2 [⟨"u1", "online", false, 1000, ""⟩]) "u1" false
      = false ∧
    ∃ d, (SetStatusOnline (testEnv memStore)
        (testWorld 2 [⟨"u1", "online", false, 1000, ""⟩]) 2000 "u1" "s1" false).log
          = (testWorld 2 [⟨"u1", "online", false, 1000, ""⟩]).log ++ d ∧
      d.filter Effect.isSessionWrite = [] ∧ d.filter Effect.isStatusWrite = [] :=
  have h := session_update_debounced (testEnv memStore)
    (testWorld 2 [⟨"u1", "online", false, 1000, ""⟩]) 2000 "u1" "s1" false rfl
  ⟨rfl, h.elim fun d hd => ⟨d, hd.1, hd.2.2 (by decide)⟩⟩

/-! ## `GetStatus` and the cache -/

theorem GetStatus_miss_cache (env : Env σ) (w : World σ) (u : String)
    (h : w.statusCache.peek u = none) : (GetStatus env w u).2 = w := by
  rw [GetStatus_snd]
  unfold Cache.peek at h
  unfold Cache.Get
  cases hf : w.statusCache.entries.find? (fun e => e.1 == u) with
  | none => rfl
  | some e => rw [hf] at h; cases h

/-- C4, the code at the failing input.  A user with a record in the store and
none in the cache: `GetStatus` returns the record of the store and leaves the
cache empty, so the next `GetStatus` misses again. -/
theorem getStatus_does_not_backfill :
    (testWorld 2 [⟨"u1", "away", false, 5, ""⟩]).statusCache.peek "u1" = none ∧
    (GetStatus (testEnv memStore) (testWorld 2 [⟨"u1", "away", false, 5, ""⟩]) "u1").1
      = .ok ⟨"u1", "away", false, 5, ""⟩ ∧
    (GetStatus (testEnv memStore) (testWorld 2 [⟨"u1", "away", false, 5, ""⟩])
      "u1").2.statusCache.entries = [] ∧
    (GetStatus (testEnv memStore) (testWorld 2 [⟨"u1", "away", false, 5, ""⟩])
      "u1").2.statusCache.peek "u1" = none :=
  ⟨rfl, rfl, rfl, rfl⟩

/-! ## Debounced persistence -/

/-- C5. Debounced persistence decision of `SetStatusOnline`.  For a call that
is not blocked (cache of positive capacity, readable record carrying the
user's id): a durable status write (`SaveOrUpdate` or `UpdateLastActivityAt` on
the status store) is issued, and then exactly one, if and only if the prior
state was not `ONLINE`, or the prior manual flag was not false, or `now` minus
the prior `LastActivityAt` (the `int64` subtraction of the code) is strictly
greater than `STATUS_MIN_UPDATE_TIME`, a missing prior record counting as
`OFFLINE`, not manual, active at 0.  The cache holds the user's record with
`LastActivityAt = now` in every case; in particular at an elapsed time exactly
equal to the interval, with state and manual flag unchanged, no durable write
is issued and the cache is still updated. -/
theorem setStatusOnline_persistence (env : Env σ) (w : World σ) (now : Int)
    (U sessionId : String) (manual : Bool)
    (hsize : 0 < w.statusCache.size)
    (hid : ∀ r, current env w U = .ok r → r.UserId = U)
    (hnb : blocked env w U manual = false) :
    ∃ d, (SetStatusOnline env w now U sessionId manual).log = w.log ++ d ∧
      ((∃ e ∈ d, e.isStatusWrite = true) ↔
        ((prior env w U).Status ≠ STATUS_ONLINE ∨ (prior env w U).Manual ≠ false ∨
          sub64 now (prior env w U).LastActivityAt > env.STATUS_MIN_UPDATE_TIME)) ∧
      (d.filter Effect.isStatusWrite).length ≤ 1 ∧
      (∃ r2, (SetStatusOnline env w now U sessionId manual).statusCache.peek U = some r2 ∧
        r2.LastActivityAt = now) ∧
      ((prior env w U).Status = STATUS_ONLINE → (prior env w U).Manual = false →
        sub64 now (prior env w U).LastActivityAt = env.STATUS_MIN_UPDATE_TIME →
        d.filter Effect.isStatusWrite = [] ∧
        ∃ r2, (SetStatusOnline env w now U sessionId manual).statusCache.peek U = some r2 ∧
          r2.LastActivityAt = now) := by
  obtain ⟨d, hd, -, hw, -⟩ := SetStatusOnline_issued env w now U sessionId manual hnb
  have hpeek := SetStatusOnline_peek env w now U sessionId manual hsize hid hnb
  have hiff := mustPersist_iff env w U now
  refine ⟨d, hd, ?_, ?_, ⟨_, hpeek, rfl⟩, ?_⟩
  · rw [← hiff]
    constructor
    · rintro ⟨e, he, hew⟩
      have hmem : e ∈ d.filter Effect.isStatusWrite := List.mem_filter.2 ⟨he, hew⟩
      rw [hw] at hmem
      cases hm : mustPersist env w U now with
      | true => rfl
      | false => rw [hm] at hmem; simp at hmem
    · intro hm
      rw [hm] at hw
      have hmem : (if (prior env w U).Status != STATUS_ONLINE then
            Effect.statusSaveOrUpdate (onlineRecord env w U now)
          else Effect.statusUpdateLastActivityAt (prior env w U).UserId now)
          ∈ d.filter Effect.isStatusWrite := by
        rw [hw]; simp
      exact ⟨_, (List.mem_filter.1 hmem).1, (List.mem_filter.1 hmem).2⟩
  · rw [hw]
    split <;> simp
  · intro h1 h2 h3
    have hm : mustPersist env w U now = false := by
      cases hm : mustPersist env w U now with
      | false => rfl
      | true =>
        rcases hiff.1 hm with h | h | h
        · exact absurd h1 h
        · exact absurd h2 h
        · rw [h3] at h; exact absurd h (lt_irrefl _)
    rw [hw, hm]
    exact ⟨rfl, _, hpeek, rfl⟩

/-- Witness of C5 (`setStatusOnline_persistence`): an `ONLINE`, non-manual record
whose last activity is exactly `STATUS_MIN_UPDATE_TIME` old. -/
theorem setStatusOnline_persistence_witness :
    blocked (testEnv memStore) (testWorld 2 [⟨"u1", "online", false, 1000, ""⟩]) "u1" false
      = false ∧
    sub64 121000 (prior (testEnv memStore) (testWorld 2 [⟨"u1", "online", false, 1000, ""⟩])
      "u1").LastActivityAt = (testEnv memStore).STATUS_MIN_UPDATE_TIME ∧
    ∃ d, (SetStatusOnline (testEnv memStore)
        (testWorld 2 [⟨"u1", "online", false, 1000, ""⟩]) 121000 "u1" "s1" false).log
          = (testWorld 2 [⟨"u1", "online", false, 1000, ""⟩]).log ++ d ∧
      d.filter Effect.isStatusWrite = [] ∧
      ∃ r2, (SetStatusOnline (testEnv memStore)
          (testWorld 2 [⟨"u1", "online", false, 1000, ""⟩]) 121000 "u1" "s1"
            false).statusCache.peek "u1" = some r2 ∧
        r2.LastActivityAt = 121000 :=
  have h := setStatusOnline_persistence (testEnv memStore)
    (testWorld 2 [⟨"u1", "online", false, 1000, ""⟩]) 121000 "u1" "s1" false (by decide)
    (fun r hr => by cases hr; rfl) rfl
  ⟨rfl, by decide, h.elim fun d hd => ⟨d, hd.1, hd.2.2.2.2 rfl rfl (by decide)⟩⟩

theorem SetStatusOnline_writes_le_one (env : Env σ) (w : World σ) (now : Int)
    (u sessionId : String) (manual : Bool) :
    ∃ d, (SetStatusOnline env w now u sessionId manual).log = w.log ++ d ∧
      (d.filter Effect.isStatusWrite).length ≤ 1 := by
  cases h : blocked env w u manual with
  | true =>
    rw [SetStatusOnline_blocked env w now u sessionId manual h, GetStatus_log]
    exact ⟨[], by simp, by simp⟩
  | false =>
    obtain ⟨d, hd, -, hw, -⟩ := SetStatusOnline_issued env w now u sessionId manual h
    refine ⟨d, hd, ?_⟩
    rw [hw]
    split <;> simp

/-- C6. Debounce across calls.  Two consecutive calls of `SetStatusOnline` for
`U` at times `t1 ≤ t2` with `t2 - t1` not above `STATUS_MIN_UPDATE_TIME` (an
`int64` constant), on a cache of positive capacity (so `U` is not evicted in
between): the two calls together issue at most one durable status write, and
after each call that is not blocked the cache holds `U`'s record with
`LastActivityAt` equal to the time of that call. -/
theorem setStatusOnline_debounce (env : Env σ) (w : World σ) (t1 t2 : Int)
    (U s1 s2 : String) (m1 m2 : Bool)
    (hsize : 0 < w.statusCache.size)
    (hid : ∀ r, current env w U = .ok r → r.UserId = U)
    (h12 : t1 ≤ t2) (hgap : t2 - t1 ≤ env.STATUS_MIN_UPDATE_TIME)
    (hmin : env.STATUS_MIN_UPDATE_TIME < 2 ^ 63) :
    ∃ d1 d2,
      (SetStatusOnline env w t1 U s1 m1).log = w.log ++ d1 ∧
      (SetStatusOnline env (SetStatusOnline env w t1 U s1 m1) t2 U s2 m2).log
        = (SetStatusOnline env w t1 U s1 m1).log ++ d2 ∧
      ((d1 ++ d2).filter Effect.isStatusWrite).length ≤ 1 ∧
      (blocked env w U m1 = true ∨
        ∃ r, (SetStatusOnline env w t1 U s1 m1).statusCache.peek U = some r ∧
          r.LastActivityAt = t1) ∧
      (blocked env (SetStatusOnline env w t1 U s1 m1) U m2 = true ∨
        ∃ r, (SetStatusOnline env (SetStatusOnline env w t1 U s1 m1) t2 U s2
            m2).statusCache.peek U = some r ∧
          r.LastActivityAt = t2) := by
  have hsz1 : 0 < (SetStatusOnline env w t1 U s1 m1).statusCache.size := by
    rw [SetStatusOnline_size]; exact hsize
  cases hb1 : blocked env w U m1 with
  | true =>
    have hw1 := SetStatusOnline_blocked env w t1 U s1 m1 hb1
    have hcur : ∀ u, current env (SetStatusOnline env w t1 U s1 m1) u = current env w u := by
      intro u
      rw [hw1]
      exact current_of_unchanged env _ _ u (GetStatus_unchanged env w U)
    have hid1 : ∀ r, current env (SetStatusOnline env w t1 U s1 m1) U = .ok r → r.UserId = U := by
      intro r hr
      rw [hcur] at hr
      exact hid r hr
    obtain ⟨d2, hd2, hle⟩ := SetStatusOnline_writes_le_one env
      (SetStatusOnline env w t1 U s1 m1) t2 U s2 m2
    refine ⟨[], d2, ?_, hd2, ?_, Or.inl rfl, ?_⟩
    · rw [hw1, GetStatus_log]; simp
    · simpa using hle
    · cases hb2 : blocked env (SetStatusOnline env w t1 U s1 m1) U m2 with
      | true => exact Or.inl rfl
      | false =>
        exact Or.inr ⟨_, SetStatusOnline_peek env _ t2 U s2 m2 hsz1 hid1 hb2, rfl⟩
  | false =>
    have hp1 := SetStatusOnline_peek env w t1 U s1 m1 hsize hid hb1
    have hc1 := current_of_cached env _ U _ hp1
    have hid1 : ∀ r, current env (SetStatusOnline env w t1 U s1 m1) U = .ok r → r.UserId = U := by
      intro r hr
      rw [hc1] at hr
      cases hr
      exact prior_userId env w U hid
    have hb2 : blocked env (SetStatusOnline env w t1 U s1 m1) U m2 = false := by
      unfold blocked
      rw [hc1]
      rfl
    have hprior : prior env (SetStatusOnline env w t1 U s1 m1) U = onlineRecord env w U t1 := by
      unfold prior
      rw [hc1]
    obtain ⟨d1, hd1, -, hw1, -⟩ := SetStatusOnline_issued env w t1 U s1 m1 hb1
    obtain ⟨d2, hd2, -, hw2, -⟩ := SetStatusOnline_issued env
      (SetStatusOnline env w t1 U s1 m1) t2 U s2 m2 hb2
    have hm2 : mustPersist env (SetStatusOnline env w t1 U s1 m1) U t2 = false := by
      cases hm : mustPersist env (SetStatusOnline env w t1 U s1 m1) U t2 with
      | false => rfl
      | true =>
        rcases (mustPersist_iff env _ U t2).1 hm with h | h | h
        · rw [hprior] at h; exact absurd rfl h
        · rw [hprior] at h; exact absurd rfl h
        · rw [hprior] at h
          have hsub : sub64 t2 t1 = t2 - t1 :=
            sub64_of_inRange t2 t1 (by have : (0 : Int) ≤ t2 - t1 := by omega
                                       omega) (by omega)
          have h2 : sub64 t2 t1 > env.STATUS_MIN_UPDATE_TIME := h
          rw [hsub] at h2
          omega
    refine ⟨d1, d2, hd1, hd2, ?_, Or.inr ⟨_, hp1, rfl⟩,
      Or.inr ⟨_, SetStatusOnline_peek env _ t2 U s2 m2 hsz1 hid1 hb2, rfl⟩⟩
    rw [List.filter_append, hw1, hw2, hm2]
    split <;> simp

/-- Witness of C6 (`setStatusOnline_debounce`): a heartbeat for a user without
a record, and a second one a second later. -/
theorem setStatusOnline_debounce_witness :
    ∃ d1 d2,
      (SetStatusOnline (testEnv memStore) (testWorld 2 []) 1000 "u1" "s1" false).log
        = (testWorld 2 []).log ++ d1 ∧
      (SetStatusOnline (testEnv memStore)
        (SetStatusOnline (testEnv memStore) (testWorld 2 []) 1000 "u1" "s1" false)
        2000 "u1" "s1" false).log
        = (SetStatusOnline (testEnv memStore) (testWorld 2 []) 1000 "u1" "s1" false).log ++ d2 ∧
      ((d1 ++ d2).filter Effect.isStatusWrite).length ≤ 1 :=
  have h := setStatusOnline_debounce (testEnv memStore) (testWorld 2 []) 1000 2000
    "u1" "s1" "s1" false false (by decide) (fun r hr => by cases hr) (by decide) (by decide)
    (by decide)
  h.elim fun d1 h1 => h1.elim fun d2 h2 => ⟨d1, d2, h2.1, h2.2.1, h2.2.2.1⟩

/-! ## `SetStatusOffline` -/

/-- C9. Postcondition of `SetStatusOffline`.  On a cache of positive capacity,
whenever the call is not blocked by the precedence rule (the read failed, or
the record read is not manual, or the call is manual): the cache afterwards
holds for `U` exactly the record `OFFLINE`, `Manual = manual`,
`LastActivityAt = now`, `ActiveChannel` empty; the status writes issued are
exactly one `SaveOrUpdate` of that record, whatever the prior state; and
exactly one `STATUS_CHANGE` event with status "offline" is published.  The
store is arbitrary, so this holds whether or not the durable write fails. -/
theorem setStatusOffline_postcondition (env : Env σ) (w : World σ) (now : Int) (U : String)
    (manual : Bool) (hsize : 0 < w.statusCache.size) (hnb : blocked env w U manual = false) :
    (SetStatusOffline env w now U manual).statusCache.peek U
      = some ⟨U, STATUS_OFFLINE, manual, now, ""⟩ ∧
    ∃ d, (SetStatusOffline env w now U manual).log = w.log ++ d ∧
      d.filter Effect.isStatusWrite
        = [.statusSaveOrUpdate ⟨U, STATUS_OFFLINE, manual, now, ""⟩] ∧
      d.filter Effect.isPublish
        = [.publish
          { Event := "status_change", TeamId := "", ChannelId := "", UserId := U,
            Data := [("status", "offline"), ("user_id", U)] }] := by
  refine ⟨SetStatusOffline_peek env w now U manual hsize hnb, ?_⟩
  rw [SetStatusOffline_eq env w now U manual hnb]
  obtain ⟨d, hd, hw, -, hp⟩ := saveAndPublish_log env (GetStatus env w U).2
    ⟨U, STATUS_OFFLINE, manual, now, ""⟩ STATUS_OFFLINE
  rw [GetStatus_log] at hd
  exact ⟨d, hd, hw, hp⟩

/-- Witness of C9 (`setStatusOffline_postcondition`): an `ONLINE` user goes
offline while every write of the store fails. -/
theorem setStatusOffline_postcondition_witness :
    (downStore.statusSaveOrUpdate [⟨"u1", "online", false, 1000, ""⟩]
      ⟨"u1", STATUS_OFFLINE, false, 2000, ""⟩).2 ≠ none ∧
    (SetStatusOffline (testEnv downStore) (testWorld 2 [⟨"u1", "online", false, 1000, ""⟩])
      2000 "u1" false).statusCache.peek "u1" = some ⟨"u1", STATUS_OFFLINE, false, 2000, ""⟩ :=
  ⟨by decide,
    (setStatusOffline_postcondition (testEnv downStore)
      (testWorld 2 [⟨"u1", "online", false, 1000, ""⟩]) 2000 "u1" false (by decide) rfl).1⟩

/-! ## `SetStatusAwayIfNeeded` -/

theorem not_awayTransition_of_unchanged (w w2 : World σ) (U : String) (manual : Bool)
    (h : Unchanged w w2) : ¬ AwayTransition w w2 U manual := by
  rintro ⟨r, -, -, -, -, d, hd, hw, -⟩
  rw [h.2.2.2.2] at hd
  have : d = [] := by simpa using hd
  rw [this] at hw
  simp at hw

theorem awayBase_userId (env : Env σ) (w : World σ) (u : String) (manual : Bool)
    (hid : ∀ r, current env w u = .ok r → r.UserId = u) :
    (awayBase env w u manual).UserId = u := by
  unfold awayBase
  cases h : current env w u with
  | error e => rfl
  | ok r => exact hid r h

theorem awayTransition_of_save (env : Env σ) (w : World σ) (U : String) (manual : Bool)
    (hsize : 0 < w.statusCache.size)
    (hid : ∀ r, current env w U = .ok r → r.UserId = U) :
    AwayTransition w
      (saveAndPublish env (GetStatus env w U).2
        { awayBase env w U manual with
          Status := STATUS_AWAY, Manual := manual, ActiveChannel := "" } STATUS_AWAY)
      U manual := by
  have hu := awayBase_userId env w U manual hid
  refine ⟨{ awayBase env w U manual with
      Status := STATUS_AWAY, Manual := manual, ActiveChannel := "" }, ?_, rfl, rfl, rfl, ?_⟩
  · rw [saveAndPublish_cache]
    show Cache.peek (Cache.Add _ (awayBase env w U manual).UserId _) U = _
    rw [hu]
    exact Cache.peek_Add_self _ _ _ (by rw [GetStatus_size]; exact hsize)
  · obtain ⟨d, hd, hw, -, hp⟩ := saveAndPublish_log env (GetStatus env w U).2
      { awayBase env w U manual with
        Status := STATUS_AWAY, Manual := manual, ActiveChannel := "" } STATUS_AWAY
    rw [GetStatus_log] at hd
    refine ⟨d, hd, hw, ?_⟩
    rw [hp]
    show [Effect.publish (statusChangeEvent (awayBase env w U manual).UserId STATUS_AWAY)] = _
    rw [hu]
    rfl

/-- C10. Transition rule of `SetStatusAwayIfNeeded`, on a cache of positive
capacity and for a user whose readable record carries the user's id.  When the
current record of `U` is not manually set (a missing record counting as
`OFFLINE` with `LastActivityAt = 0`), a call with `manual = false` moves `U` to
`AWAY` if and only if the current state is not `AWAY` and `now` minus
`LastActivityAt` is greater than or equal to the away timeout times 1000 (both
in `int64`), so an elapsed time equal to the threshold does transition; when it
does not transition it is a no-op.  A call with `manual = true` always moves
`U` to `AWAY`.  A transition leaves in the cache a record `AWAY`,
`Manual = manual`, no active channel, issues one `SaveOrUpdate` and publishes
one `STATUS_CHANGE` event with status "away". -/
theorem setStatusAwayIfNeeded_rule (env : Env σ) (w w0 : World σ) (now t0 : Int) (U : String)
    (hsize : 0 < w.statusCache.size)
    (hid : ∀ r, current env w U = .ok r → r.UserId = U)
    (hnm : ∀ r, current env w U = .ok r → r.Manual = false)
    (hsize0 : 0 < w0.statusCache.size)
    (hid0 : ∀ r, current env w0 U = .ok r → r.UserId = U) :
    (AwayTransition w (SetStatusAwayIfNeeded env w now U false) U false ↔
      ((prior env w U).Status ≠ STATUS_AWAY ∧
        sub64 now (prior env w U).LastActivityAt ≥ mul64 env.UserStatusAwayTimeout 1000)) ∧
    (¬ ((prior env w U).Status ≠ STATUS_AWAY ∧
        sub64 now (prior env w U).LastActivityAt ≥ mul64 env.UserStatusAwayTimeout 1000) →
      Unchanged w (SetStatusAwayIfNeeded env w now U false)) ∧
    AwayTransition w0 (SetStatusAwayIfNeeded env w0 t0 U true) U true := by
  have hbase : awayBase env w U false = prior env w U := by
    unfold awayBase prior
    cases current env w U <;> rfl
  have hman : (prior env w U).Manual = false := by
    unfold prior
    cases h : current env w U with
    | error e => rfl
    | ok r => exact hnm r h
  have hstep : ∀ c : Prop, c = ((prior env w U).Status ≠ STATUS_AWAY ∧
        sub64 now (prior env w U).LastActivityAt ≥ mul64 env.UserStatusAwayTimeout 1000) →
      (c → AwayTransition w (SetStatusAwayIfNeeded env w now U false) U false) ∧
      (¬ c → Unchanged w (SetStatusAwayIfNeeded env w now U false)) := by
    intro c hc
    subst hc
    rw [SetStatusAwayIfNeeded_eq]
    constructor
    · rintro ⟨h1, h2⟩
      rw [if_neg]
      · exact awayTransition_of_save env w U false hsize hid
      · rw [hbase, hman]
        simp [IsUserAway, h1, h2]
    · intro h
      rw [if_pos]
      · exact GetStatus_unchanged env w U
      · rw [hbase, hman]
        simp only [IsUserAway, Bool.not_false, Bool.true_and, Bool.and_false, Bool.false_eq_true,
          false_or, beq_iff_eq, Bool.not_eq_true', decide_eq_false_iff_not]
        by_cases hs : (prior env w U).Status = STATUS_AWAY
        · exact Or.inl hs
        · exact Or.inr (fun h2 => h ⟨hs, h2⟩)
  obtain ⟨hyes, hno⟩ := hstep _ rfl
  refine ⟨⟨?_, hyes⟩, hno, ?_⟩
  · intro ht
    by_contra hc
    exact not_awayTransition_of_unchanged _ _ U false (hno hc) ht
  · rw [SetStatusAwayIfNeeded_eq, if_neg (by simp)]
    exact awayTransition_of_save env w0 U true hsize0 hid0

/-- Witness of C10 (`setStatusAwayIfNeeded_rule`): an `ONLINE`, non-manual user
whose last activity is exactly the away timeout (300 s) old, and the same user
for the manual call. -/
theorem setStatusAwayIfNeeded_rule_witness :
    sub64 301000 (prior (testEnv memStore) (testWorld 2 [⟨"u1", "online", false, 1000, ""⟩])
      "u1").LastActivityAt = mul64 (testEnv memStore).UserStatusAwayTimeout 1000 ∧
    AwayTransition (testWorld 2 [⟨"u1", "online", false, 1000, ""⟩])
      (SetStatusAwayIfNeeded (testEnv memStore) (testWorld 2 [⟨"u1", "online", false, 1000, ""⟩])
        301000 "u1" false) "u1" false ∧
    AwayTransition (testWorld 2 [⟨"u1", "online", false, 1000, ""⟩])
      (SetStatusAwayIfNeeded (testEnv memStore) (testWorld 2 [⟨"u1", "online", false, 1000, ""⟩])
        2000 "u1" true) "u1" true :=
  have h := setStatusAwayIfNeeded_rule (testEnv memStore)
    (testWorld 2 [⟨"u1", "online", false, 1000, ""⟩])
    (testWorld 2 [⟨"u1", "online", false, 1000, ""⟩]) 301000 2000 "u1" (by decide)
    (fun r hr => by cases hr; rfl) (fun r hr => by cases hr; rfl) (by decide)
    (fun r hr => by cases hr; rfl)
  ⟨by decide, h.1.2 (by decide), h.2.2⟩

/-! ## Batch reads: the mapping form -/

theorem mapGet_mapSet (m : StatusMap) (k v k2 : String) :
    mapGet (mapSet m k v) k2 = if k2 = k then some v else mapGet m k2 := by
  unfold mapGet mapSet
  by_cases h : k2 = k
  · subst h
    simp [List.find?_cons]
  · have hne : (k == k2) = false := by simpa using fun e => h e.symm
    rw [if_neg h, List.find?_cons]
    simp only [hne]
    congr 1
    induction m with
    | nil => rfl
    | cons a m ih =>
      by_cases ha : a.1 = k
      · have h1 : (a.1 != k) = false := by simp [ha]
        have h2 : (a.1 == k2) = false := by simpa [ha] using fun e => h e.symm
        rw [List.filter_cons, List.find?_cons]
        simp only [h1, h2]
        exact ih
      · have h1 : (a.1 != k) = true := by simpa using ha
        rw [List.filter_cons, List.find?_cons]
        simp only [h1, if_true]
        rw [List.find?_cons, ih]

theorem mem_mapKeys_iff (m : StatusMap) (k : String) :
    k ∈ mapKeys m ↔ (mapGet m k).isSome = true := by
  unfold mapKeys mapGet
  have hm : ∀ o : Option (String × String), (o.map (fun e => e.2)).isSome = o.isSome := by
    intro o; cases o <;> rfl
  rw [hm, List.find?_isSome]
  simp only [List.mem_map, beq_iff_eq]

theorem mapKeys_mapSet_nodup (m : StatusMap) (k v : String) (h : (mapKeys m).Nodup) :
    (mapKeys (mapSet m k v)).Nodup := by
  unfold mapKeys mapSet at *
  rw [List.map_cons, List.nodup_cons]
  constructor
  · simp
  · exact (List.filter_sublist m).map (fun e => e.1) |>.nodup h

theorem GetStatusesByIds.lookup_eq (env : Env σ) (acc : StatusMap × List String × World σ)
    (u : String) :
    GetStatusesByIds.lookup env acc u
      = match acc.2.2.statusCache.peek u with
        | some s =>
          (mapSet acc.1 u s.Status, acc.2.1,
            { acc.2.2 with statusCache := (acc.2.2.statusCache.Get u).2 }.emit
              (metricsEffect env true))
        | none =>
          (acc.1, acc.2.1 ++ [u],
            { acc.2.2 with statusCache := (acc.2.2.statusCache.Get u).2 }.emit
              (metricsEffect env false)) := by
  unfold GetStatusesByIds.lookup
  rw [← Cache.Get_fst]
  rcases acc.2.2.statusCache.Get u with ⟨_ | s, c⟩ <;> rfl

theorem GetStatusesByIds.lookup_fold (env : Env σ) (ids : List String) :
    ∀ acc : StatusMap × List String × World σ,
      (ids.foldl (GetStatusesByIds.lookup env) acc).2.1 = acc.2.1 ++ uncached acc.2.2 ids ∧
      (∀ k s, k ∈ ids → acc.2.2.statusCache.peek k = some s →
        mapGet (ids.foldl (GetStatusesByIds.lookup env) acc).1 k = some s.Status) ∧
      (∀ k, (k ∉ ids ∨ acc.2.2.statusCache.peek k = none) →
        mapGet (ids.foldl (GetStatusesByIds.lookup env) acc).1 k = mapGet acc.1 k) ∧
      ((mapKeys acc.1).Nodup →
        (mapKeys (ids.foldl (GetStatusesByIds.lookup env) acc).1).Nodup) ∧
      (∀ k, (ids.foldl (GetStatusesByIds.lookup env) acc).2.2.statusCache.peek k
        = acc.2.2.statusCache.peek k) ∧
      (ids.foldl (GetStatusesByIds.lookup env) acc).2.2.store = acc.2.2.store := by
  induction ids with
  | nil =>
    intro acc
    simp [uncached]
  | cons u ids ih =>
    intro acc
    rw [List.foldl_cons]
    obtain ⟨h1, h2, h3, h4, h5, h6⟩ := ih (GetStatusesByIds.lookup env acc u)
    have hstep := GetStatusesByIds.lookup_eq env acc u
    have hpeek : ∀ k, (GetStatusesByIds.lookup env acc u).2.2.statusCache.peek k
        = acc.2.2.statusCache.peek k := by
      intro k
      rw [hstep]
      cases acc.2.2.statusCache.peek u <;> exact Cache.peek_Get _ _ _
    have hstore : (GetStatusesByIds.lookup env acc u).2.2.store = acc.2.2.store := by
      rw [hstep]
      cases acc.2.2.statusCache.peek u <;> rfl
    have hunc : uncached (GetStatusesByIds.lookup env acc u).2.2 ids = uncached acc.2.2 ids := by
      unfold uncached
      congr 1
      funext k
      rw [hpeek]
    refine ⟨?_, ?_, ?_, ?_, ?_, ?_⟩
    · rw [h1, hunc, hstep]
      unfold uncached
      rw [List.filter_cons]
      cases hp : acc.2.2.statusCache.peek u <;> simp
    · intro k s hk hs
      by_cases hmem : k ∈ ids
      · exact h2 k s hmem (by rw [hpeek]; exact hs)
      · have hku : k = u := by
          rcases List.mem_cons.1 hk with h | h
          · exact h
          · exact absurd h hmem
        subst hku
        rw [h3 k (Or.inl hmem), hstep, hs]
        simp [mapGet_mapSet]
    · intro k hk
      have hk2 : k ∉ ids ∨ (GetStatusesByIds.lookup env acc u).2.2.statusCache.peek k = none := by
        rcases hk with h | h
        · exact Or.inl (fun hm => h (List.mem_cons_of_mem _ hm))
        · exact Or.inr (by rw [hpeek]; exact h)
      rw [h3 k hk2, hstep]
      cases hp : acc.2.2.statusCache.peek u with
      | none => rfl
      | some s =>
        show mapGet (mapSet acc.1 u s.Status) k = mapGet acc.1 k
        rw [mapGet_mapSet, if_neg]
        rintro rfl
        rcases hk with h | h
        · exact h (List.mem_cons_self _ _)
        · rw [h] at hp; cases hp
    · intro hn
      apply h4
      rw [hstep]
      cases acc.2.2.statusCache.peek u with
      | none => exact hn
      | some s => exact mapKeys_mapSet_nodup _ _ _ hn
    · intro k
      rw [h5, hpeek]
    · rw [h6, hstore]

theorem GetStatusesByIds.backfill_fold (env : Env σ) (statuses : List Status) :
    ∀ acc : StatusMap × World σ,
      (∀ k, mapGet (statuses.foldl (GetStatusesByIds.backfill env) acc).1 k
        = match lastFor statuses k with
          | some s => some s.Status
          | none => mapGet acc.1 k) ∧
      ((mapKeys acc.1).Nodup →
        (mapKeys (statuses.foldl (GetStatusesByIds.backfill env) acc).1).Nodup) := by
  induction statuses using List.reverseRecOn with
  | nil =>
    intro acc
    exact ⟨fun k => rfl, fun h => h⟩
  | append_singleton l s ih =>
    intro acc
    rw [List.foldl_append]
    obtain ⟨h1, h2⟩ := ih acc
    constructor
    · intro k
      show mapGet (mapSet _ s.UserId s.Status) k = _
      rw [mapGet_mapSet]
      unfold lastFor
      rw [List.reverse_append, List.reverse_singleton, List.singleton_append, List.find?_cons]
      by_cases hk : k = s.UserId
      · subst hk
        simp
      · have hne : (s.UserId == k) = false := by simpa using fun e => hk e.symm
        rw [if_neg hk, h1 k]
        simp only [hne]
        rfl
    · intro hn
      exact mapKeys_mapSet_nodup _ _ _ (h2 hn)

theorem GetStatusesByIds.markOffline_fold (missing : List String) :
    ∀ m : StatusMap,
      (∀ k, mapGet (missing.foldl GetStatusesByIds.markOffline m) k
        = match mapGet m k with
          | some v => some v
          | none => if k ∈ missing then some STATUS_OFFLINE else none) ∧
      ((mapKeys m).Nodup → (mapKeys (missing.foldl GetStatusesByIds.markOffline m)).Nodup) := by
  induction missing with
  | nil =>
    intro m
    refine ⟨fun k => ?_, fun h => h⟩
    cases h : mapGet m k <;> simp [h]
  | cons u missing ih =>
    intro m
    rw [List.foldl_cons]
    obtain ⟨h1, h2⟩ := ih (GetStatusesByIds.markOffline m u)
    have hstep : ∀ k, mapGet (GetStatusesByIds.markOffline m u) k
        = match mapGet m k with
          | some v => some v
          | none => if k = u then some STATUS_OFFLINE else none := by
      intro k
      unfold GetStatusesByIds.markOffline
      by_cases hu : (mapGet m u).isNone = true
      · rw [if_pos hu, mapGet_mapSet]
        by_cases hk : k = u
        · subst hk
          rw [Option.isNone_iff_eq_none] at hu
          rw [hu]
        · rw [if_neg hk]
          cases mapGet m k <;> simp [hk]
      · rw [if_neg hu]
        cases hm : mapGet m k with
        | some v => rfl
        | none =>
          have : k ≠ u := by
            rintro rfl
            rw [hm] at hu
            exact hu rfl
          simp [this]
    constructor
    · intro k
      rw [h1 k, hstep k]
      cases mapGet m k with
      | some v => rfl
      | none =>
        by_cases hk : k = u
        · simp [hk]
        · simp [hk]
    · intro hn
      apply h2
      unfold GetStatusesByIds.markOffline
      split
      · exact mapKeys_mapSet_nodup _ _ _ hn
      · exact hn

theorem lastFor_some (statuses : List Status) (u : String) (s : Status)
    (h : lastFor statuses u = some s) : s ∈ statuses ∧ s.UserId = u := by
  unfold lastFor at h
  have h1 := List.mem_of_find?_eq_some h
  have h2 : (s.UserId == u) = true := List.find?_some (p := fun s : Status => s.UserId == u) h
  exact ⟨List.mem_reverse.1 h1, by simpa using h2⟩

theorem lastFor_eq_none (statuses : List Status) (u : String)
    (h : ∀ s ∈ statuses, s.UserId ≠ u) : lastFor statuses u = none := by
  unfold lastFor
  rw [List.find?_eq_none]
  intro s hs
  simpa using h s (List.mem_reverse.1 hs)

theorem mem_uncached (w : World σ) (ids : List String) (u : String) :
    u ∈ uncached w ids ↔ u ∈ ids ∧ w.statusCache.peek u = none := by
  unfold uncached
  rw [List.mem_filter, Option.isNone_iff_eq_none]

theorem GetStatusesByIds_eq (env : Env σ) (w : World σ) (userIds : List String)
    (statuses : List Status)
    (hget : uncached w userIds ≠ [] →
      env.store.statusGetByIds w.store (uncached w userIds) = .ok statuses)
    (hsub : ∀ s ∈ statuses, s.UserId ∈ uncached w userIds) :
    (GetStatusesByIds env w userIds).1
      = .ok ((uncached w userIds).foldl GetStatusesByIds.markOffline
          (statuses.foldl (GetStatusesByIds.backfill env)
            ((userIds.foldl (GetStatusesByIds.lookup env) ([], [], w)).1,
             (userIds.foldl (GetStatusesByIds.lookup env) ([], [], w)).2.2)).1) := by
  obtain ⟨hmiss, -, -, -, -, hst⟩ := GetStatusesByIds.lookup_fold env userIds ([], [], w)
  rw [List.nil_append] at hmiss
  unfold GetStatusesByIds
  dsimp only
  rw [hmiss, hst]
  by_cases hne : uncached w userIds = []
  · have hnil : statuses = [] := by
      cases statuses with
      | nil => rfl
      | cons s l =>
        have := hsub s (List.mem_cons_self _ _)
        rw [hne] at this
        cases this
    rw [hne, hnil]
    rfl
  · have hlen : (uncached w userIds).length > 0 := List.length_pos.2 hne
    rw [if_pos hlen, hget hne]

/-- C8. Batch-read completeness, mapping form.  For every list of requested
identifiers (duplicates allowed), if the store's `GetByIds` call for the
uncached identifiers (made only when there are any) succeeds and answers only
with records of identifiers it was asked for, then `GetStatusesByIds` succeeds
and the keys of the returned map are exactly the requested identifiers, each
once; a cached identifier maps to the state of its cached record, an uncached
identifier with a store record maps to the state of that record (of the last
one, should the store answer with several for it), and an identifier with a
record in neither maps to `OFFLINE`. -/
theorem getStatusesByIds_complete (env : Env σ) (w : World σ) (userIds : List String)
    (statuses : List Status)
    (hget : uncached w userIds ≠ [] →
      env.store.statusGetByIds w.store (uncached w userIds) = .ok statuses)
    (hsub : ∀ s ∈ statuses, s.UserId ∈ uncached w userIds) :
    ∃ m, (GetStatusesByIds env w userIds).1 = .ok m ∧
      (∀ k, k ∈ mapKeys m ↔ k ∈ userIds) ∧
      (mapKeys m).Nodup ∧
      (∀ u s, u ∈ userIds → w.statusCache.peek u = some s → mapGet m u = some s.Status) ∧
      (∀ u s, u ∈ userIds → w.statusCache.peek u = none → lastFor statuses u = some s →
        mapGet m u = some s.Status) ∧
      (∀ u, u ∈ userIds → w.statusCache.peek u = none → (∀ s ∈ statuses, s.UserId ≠ u) →
        mapGet m u = some STATUS_OFFLINE) := by
  obtain ⟨-, hhit, hmiss, hnd, -, -⟩ := GetStatusesByIds.lookup_fold env userIds ([], [], w)
  obtain ⟨hb, hbnd⟩ := GetStatusesByIds.backfill_fold env statuses
    ((userIds.foldl (GetStatusesByIds.lookup env) ([], [], w)).1,
     (userIds.foldl (GetStatusesByIds.lookup env) ([], [], w)).2.2)
  obtain ⟨ho, hond⟩ := GetStatusesByIds.markOffline_fold (uncached w userIds)
    (statuses.foldl (GetStatusesByIds.backfill env)
      ((userIds.foldl (GetStatusesByIds.lookup env) ([], [], w)).1,
       (userIds.foldl (GetStatusesByIds.lookup env) ([], [], w)).2.2)).1
  have hempty : ∀ k, mapGet ([] : StatusMap) k = none := fun k => rfl
  -- the three cases of a key
  have hcached : ∀ u s, u ∈ userIds → w.statusCache.peek u = some s →
      mapGet ((uncached w userIds).foldl GetStatusesByIds.markOffline
        (statuses.foldl (GetStatusesByIds.backfill env)
          ((userIds.foldl (GetStatusesByIds.lookup env) ([], [], w)).1,
           (userIds.foldl (GetStatusesByIds.lookup env) ([], [], w)).2.2)).1) u
        = some s.Status := by
    intro u s hu hs
    have hl : lastFor statuses u = none := by
      apply lastFor_eq_none
      intro s2 hs2 he
      have := (mem_uncached w userIds s2.UserId).1 (hsub s2 hs2)
      rw [he, hs] at this
      cases this.2
    rw [ho, hb, hl]
    dsimp only
    rw [hhit u s hu hs]
  have hstored : ∀ u s, lastFor statuses u = some s →
      mapGet ((uncached w userIds).foldl GetStatusesByIds.markOffline
        (statuses.foldl (GetStatusesByIds.backfill env)
          ((userIds.foldl (GetStatusesByIds.lookup env) ([], [], w)).1,
           (userIds.foldl (GetStatusesByIds.lookup env) ([], [], w)).2.2)).1) u
        = some s.Status := by
    intro u s hl
    rw [ho, hb, hl]
  have hneither : ∀ u, (u ∉ userIds ∨ w.statusCache.peek u = none) →
      (∀ s ∈ statuses, s.UserId ≠ u) →
      mapGet ((uncached w userIds).foldl GetStatusesByIds.markOffline
        (statuses.foldl (GetStatusesByIds.backfill env)
          ((userIds.foldl (GetStatusesByIds.lookup env) ([], [], w)).1,
           (userIds.foldl (GetStatusesByIds.lookup env) ([], [], w)).2.2)).1) u
        = if u ∈ uncached w userIds then some STATUS_OFFLINE else none := by
    intro u hu hs
    rw [ho, hb, lastFor_eq_none statuses u hs]
    dsimp only
    rw [hmiss u hu, hempty]
  refine ⟨_, GetStatusesByIds_eq env w userIds statuses hget hsub, ?_, ?_, hcached, ?_, ?_⟩
  · intro k
    rw [mem_mapKeys_iff]
    constructor
    · intro hk
      by_contra hnot
      have hs : ∀ s ∈ statuses, s.UserId ≠ k := by
        intro s hs he
        exact hnot (he ▸ ((mem_uncached w userIds s.UserId).1 (hsub s hs)).1)
      rw [hneither k (Or.inl hnot) hs, if_neg] at hk
      · cases hk
      · intro hm
        exact hnot ((mem_uncached w userIds k).1 hm).1
    · intro hk
      cases hp : w.statusCache.peek k with
      | some s => rw [hcached k s hk hp]; rfl
      | none =>
        cases hl : lastFor statuses k with
        | some s => rw [hstored k s hl]; rfl
        | none =>
          have hs : ∀ s ∈ statuses, s.UserId ≠ k := by
            intro s hs he
            have := List.find?_eq_none.1 hl s (List.mem_reverse.2 hs)
            simp [he] at this
          rw [hneither k (Or.inr hp) hs, if_pos ((mem_uncached w userIds k).2 ⟨hk, hp⟩)]
          rfl
  · exact hond (hbnd (hnd List.nodup_nil))
  · intro u s _ _ hl
    exact hstored u s hl
  · intro u hu hp hs
    rw [hneither u (Or.inr hp) hs, if_pos ((mem_uncached w userIds u).2 ⟨hu, hp⟩)]

/-! ## Batch reads: the list form -/

/-- The removal loop terminates (it is a total function) and, started at the
end of a prefix, leaves the prefix followed by the remaining identifiers that
are not the `UserId` of a collected record. -/
theorem GetUserStatusesByIds.removeFound_append (statusMap : List Status) (post : List String) :
    ∀ pre : List String,
      GetUserStatusesByIds.removeFound statusMap (pre ++ post) pre.length
        = pre ++ post.filter (fun u => !statusMap.any (fun userMap => u == userMap.UserId)) := by
  induction post with
  | nil =>
    intro pre
    rw [GetUserStatusesByIds.removeFound]
    simp
  | cons x post ih =>
    intro pre
    rw [GetUserStatusesByIds.removeFound]
    have hlt : pre.length < (pre ++ x :: post).length := by simp
    rw [dif_pos hlt]
    have hx : (pre ++ x :: post)[pre.length] = x := by
      rw [List.getElem_append_right (Nat.le_refl _)]
      simp
    rw [hx]
    by_cases hf : statusMap.any (fun userMap => x == userMap.UserId) = true
    · rw [if_pos hf]
      have he : (pre ++ x :: post).eraseIdx pre.length = pre ++ post := by
        rw [List.eraseIdx_append_of_length_le (Nat.le_refl _)]
        simp
      rw [he, ih pre, List.filter_cons]
      simp [hf]
    · rw [if_neg hf]
      have h1 : pre ++ x :: post = (pre ++ [x]) ++ post := by simp
      have h2 : pre.length + 1 = (pre ++ [x]).length := by simp
      rw [h1, h2, ih (pre ++ [x]), List.filter_cons]
      simp [hf]

theorem GetUserStatusesByIds.removeFound_eq (statusMap : List Status) (missing : List String) :
    GetUserStatusesByIds.removeFound statusMap missing 0
      = missing.filter (fun u => !statusMap.any (fun userMap => u == userMap.UserId)) := by
  have := GetUserStatusesByIds.removeFound_append statusMap missing []
  simpa using this

theorem GetUserStatusesByIds.listLookup_eq (env : Env σ)
    (acc : List Status × List String × World σ) (u : String) :
    GetUserStatusesByIds.lookup env acc u
      = match acc.2.2.statusCache.peek u with
        | some s =>
          (acc.1 ++ [s], acc.2.1,
            { acc.2.2 with statusCache := (acc.2.2.statusCache.Get u).2 }.emit
              (metricsEffect env true))
        | none =>
          (acc.1, acc.2.1 ++ [u],
            { acc.2.2 with statusCache := (acc.2.2.statusCache.Get u).2 }.emit
              (metricsEffect env false)) := by
  unfold GetUserStatusesByIds.lookup
  rw [← Cache.Get_fst]
  rcases acc.2.2.statusCache.Get u with ⟨_ | s, c⟩ <;> rfl

theorem GetUserStatusesByIds.listLookup_fold (env : Env σ) (ids : List String) :
    ∀ acc : List Status × List String × World σ,
      (ids.foldl (GetUserStatusesByIds.lookup env) acc).1 = acc.1 ++ cachedRecords acc.2.2 ids ∧
      (ids.foldl (GetUserStatusesByIds.lookup env) acc).2.1 = acc.2.1 ++ uncached acc.2.2 ids ∧
      (∀ k, (ids.foldl (GetUserStatusesByIds.lookup env) acc).2.2.statusCache.peek k
        = acc.2.2.statusCache.peek k) ∧
      (ids.foldl (GetUserStatusesByIds.lookup env) acc).2.2.store = acc.2.2.store := by
  induction ids with
  | nil =>
    intro acc
    simp [uncached, cachedRecords]
  | cons u ids ih =>
    intro acc
    rw [List.foldl_cons]
    obtain ⟨h1, h2, h3, h4⟩ := ih (GetUserStatusesByIds.lookup env acc u)
    have hstep := GetUserStatusesByIds.listLookup_eq env acc u
    have hpeek : ∀ k, (GetUserStatusesByIds.lookup env acc u).2.2.statusCache.peek k
        = acc.2.2.statusCache.peek k := by
      intro k
      rw [hstep]
      cases acc.2.2.statusCache.peek u <;> exact Cache.peek_Get _ _ _
    have hstore : (GetUserStatusesByIds.lookup env acc u).2.2.store = acc.2.2.store := by
      rw [hstep]
      cases acc.2.2.statusCache.peek u <;> rfl
    have hunc : uncached (GetUserStatusesByIds.lookup env acc u).2.2 ids
        = uncached acc.2.2 ids := by
      unfold uncached
      congr 1
      funext k
      rw [hpeek]
    have hcr : cachedRecords (GetUserStatusesByIds.lookup env acc u).2.2 ids
        = cachedRecords acc.2.2 ids := by
      unfold cachedRecords
      congr 1
      funext k
      rw [hpeek]
    refine ⟨?_, ?_, ?_, ?_⟩
    · rw [h1, hcr, hstep]
      unfold cachedRecords
      rw [List.filterMap_cons]
      cases hp : acc.2.2.statusCache.peek u <;> simp
    · rw [h2, hunc, hstep]
      unfold uncached
      rw [List.filter_cons]
      cases hp : acc.2.2.statusCache.peek u <;> simp
    · intro k
      rw [h3, hpeek]
    · rw [h4, hstore]

theorem GetUserStatusesByIds_eq (env : Env σ) (w : World σ) (userIds : List String)
    (statuses : List Status)
    (hget : uncached w userIds ≠ [] →
      env.store.statusGetByIds w.store (uncached w userIds) = .ok statuses)
    (hsub : ∀ s ∈ statuses, s.UserId ∈ uncached w userIds) :
    (GetUserStatusesByIds env w userIds).1
      = .ok (GetUserStatusesByIds.complete (cachedRecords w userIds ++ statuses)
          (uncached w userIds)) := by
  obtain ⟨hhit, hmiss, -, hst⟩ := GetUserStatusesByIds.listLookup_fold env userIds ([], [], w)
  rw [List.nil_append] at hhit hmiss
  unfold GetUserStatusesByIds
  dsimp only
  rw [hmiss, hst, hhit]
  by_cases hne : uncached w userIds = []
  · have hnil : statuses = [] := by
      cases statuses with
      | nil => rfl
      | cons s l =>
        have := hsub s (List.mem_cons_self _ _)
        rw [hne] at this
        cases this
    rw [hne, hnil]
    simp
  · have hlen : (uncached w userIds).length > 0 := List.length_pos.2 hne
    rw [if_pos hlen, hget hne]

theorem Cache.peek_userId (c : Cache) (hk : c.Keyed) (u : String) (s : Status)
    (h : c.peek u = some s) : s.UserId = u := by
  unfold Cache.peek at h
  cases hf : c.entries.find? (fun e => e.1 == u) with
  | none => rw [hf] at h; cases h
  | some e =>
    rw [hf] at h
    cases h
    have hmem := List.mem_of_find?_eq_some hf
    have hp2 : (e.1 == u) = true :=
      List.find?_some (p := fun e : String × Status => e.1 == u) hf
    rw [hk e hmem]
    simpa using hp2

theorem cachedRecords_ids (w : World σ) (hk : w.statusCache.Keyed) (ids : List String) :
    (cachedRecords w ids).map (fun s => s.UserId)
      = ids.filter (fun u => (w.statusCache.peek u).isSome) := by
  unfold cachedRecords
  induction ids with
  | nil => rfl
  | cons u ids ih =>
    rw [List.filterMap_cons, List.filter_cons]
    cases hp : w.statusCache.peek u with
    | none => simpa using ih
    | some s =>
      have := Cache.peek_userId _ hk u s hp
      simp [ih, this]

theorem mem_cachedRecords (w : World σ) (ids : List String) (s : Status) :
    s ∈ cachedRecords w ids ↔ ∃ u ∈ ids, w.statusCache.peek u = some s := by
  unfold cachedRecords
  rw [List.mem_filterMap]

/-- C7. Batch-read completeness, list form.  For pairwise distinct requested
identifiers and a cache that stores each record under its own id, if the
store's `GetByIds` call for the uncached identifiers (made only when there are
any) succeeds and answers with at most one record per identifier and only for
identifiers it was asked for, then `GetUserStatusesByIds` succeeds and the
returned list holds exactly one record per requested identifier and no other:
the cached record of a cached identifier, the store's record of a store-only
identifier, and a record with `Status = "offline"` for an identifier with a
record in neither.  The removal loop over `missingUserIds` terminates and
leaves exactly the identifiers without a record among the collected ones. -/
theorem getUserStatusesByIds_complete (env : Env σ) (w : World σ) (userIds : List String)
    (statuses : List Status)
    (hnodup : userIds.Nodup)
    (hkeyed : w.statusCache.Keyed)
    (hget : uncached w userIds ≠ [] →
      env.store.statusGetByIds w.store (uncached w userIds) = .ok statuses)
    (hsub : ∀ s ∈ statuses, s.UserId ∈ uncached w userIds)
    (hone : (statuses.map (fun s => s.UserId)).Nodup) :
    ∃ result, (GetUserStatusesByIds env w userIds).1 = .ok result ∧
      (result.map (fun s => s.UserId)).Perm userIds ∧
      (∀ u s, u ∈ userIds → w.statusCache.peek u = some s → s ∈ result) ∧
      (∀ s ∈ statuses, s ∈ result) ∧
      (∀ u, u ∈ userIds → w.statusCache.peek u = none → (∀ s ∈ statuses, s.UserId ≠ u) →
        ({ UserId := u, Status := "offline", Manual := false, LastActivityAt := 0,
           ActiveChannel := "" } : Status) ∈ result) ∧
      GetUserStatusesByIds.removeFound (cachedRecords w userIds ++ statuses)
          (uncached w userIds) 0
        = (uncached w userIds).filter
            (fun u => !(cachedRecords w userIds ++ statuses).any (fun r => u == r.UserId)) := by
  have hrem := GetUserStatusesByIds.removeFound_eq (cachedRecords w userIds ++ statuses)
    (uncached w userIds)
  have hcids := cachedRecords_ids w hkeyed userIds
  -- membership in the identifiers that are left after the removal loop
  have hrest : ∀ u, u ∈ (uncached w userIds).filter
        (fun u => !(cachedRecords w userIds ++ statuses).any (fun r => u == r.UserId)) ↔
      u ∈ userIds ∧ w.statusCache.peek u = none ∧ ∀ s ∈ statuses, s.UserId ≠ u := by
    intro u
    rw [List.mem_filter, mem_uncached]
    simp only [Bool.not_eq_true', List.any_eq_false, beq_iff_eq, List.mem_append]
    constructor
    · rintro ⟨⟨hu, hp⟩, hno⟩
      exact ⟨hu, hp, fun s hs he => hno s (Or.inr hs) he.symm⟩
    · rintro ⟨hu, hp, hno⟩
      refine ⟨⟨hu, hp⟩, ?_⟩
      rintro s (hs | hs) he
      · obtain ⟨u2, -, hp2⟩ := (mem_cachedRecords w userIds s).1 hs
        have := Cache.peek_userId _ hkeyed u2 s hp2
        rw [← he] at this
        subst this
        rw [hp] at hp2
        cases hp2
      · exact hno s hs he.symm
  refine ⟨_, GetUserStatusesByIds_eq env w userIds statuses hget hsub, ?_, ?_, ?_, ?_, hrem⟩
  · unfold GetUserStatusesByIds.complete
    rw [hrem]
    have hmap : (List.map (fun s => s.UserId)
        (cachedRecords w userIds ++ statuses ++
          List.map offlineRecord
            ((uncached w userIds).filter
              (fun u => !(cachedRecords w userIds ++ statuses).any (fun r => u == r.UserId)))))
        = userIds.filter (fun u => (w.statusCache.peek u).isSome)
          ++ statuses.map (fun s => s.UserId)
          ++ (uncached w userIds).filter
              (fun u => !(cachedRecords w userIds ++ statuses).any (fun r => u == r.UserId)) := by
      rw [List.map_append, List.map_append, hcids, List.map_map]
      congr 1
      exact List.map_id _
    rw [hmap]
    have hS : ∀ u, u ∈ statuses.map (fun s => s.UserId) →
        u ∈ userIds ∧ w.statusCache.peek u = none := by
      intro u hu
      obtain ⟨s, hs, rfl⟩ := List.mem_map.1 hu
      exact (mem_uncached w userIds s.UserId).1 (hsub s hs)
    apply (List.perm_ext_iff_of_nodup ?_ hnodup).2
    · intro u
      simp only [List.mem_append, List.mem_filter, hrest]
      constructor
      · rintro ((⟨hu, -⟩ | hu) | ⟨hu, -, -⟩)
        · exact hu
        · exact (hS u hu).1
        · exact hu
      · intro hu
        cases hp : w.statusCache.peek u with
        | some s => exact Or.inl (Or.inl ⟨hu, rfl⟩)
        | none =>
          by_cases hin : u ∈ statuses.map (fun s => s.UserId)
          · exact Or.inl (Or.inr hin)
          · refine Or.inr ⟨hu, rfl, ?_⟩
            intro s hs he
            exact hin (List.mem_map.2 ⟨s, hs, he⟩)
    · rw [List.nodup_append, List.nodup_append]
      refine ⟨⟨hnodup.filter _, hone, ?_⟩, (hnodup.filter _).filter _, ?_⟩
      · intro u h1 h2
        have := (hS u h2).2
        rw [List.mem_filter, this] at h1
        cases h1.2
      · intro u h1 h2
        obtain ⟨-, hp, hno⟩ := (hrest u).1 h2
        rcases List.mem_append.1 h1 with h | h
        · rw [List.mem_filter, hp] at h
          cases h.2
        · obtain ⟨s, hs, he⟩ := List.mem_map.1 h
          exact hno s hs he
  · intro u s hu hp
    unfold GetUserStatusesByIds.complete
    exact List.mem_append_left _
      (List.mem_append_left _ ((mem_cachedRecords w userIds s).2 ⟨u, hu, hp⟩))
  · intro s hs
    unfold GetUserStatusesByIds.complete
    exact List.mem_append_left _ (List.mem_append_right _ hs)
  · intro u hu hp hno
    unfold GetUserStatusesByIds.complete
    rw [hrem]
    apply List.mem_append_right
    exact List.mem_map.2 ⟨u, (hrest u).2 ⟨hu, hp, hno⟩, rfl⟩

/-- Witness of C7 (`getUserStatusesByIds_complete`): a cached, a store-only and
a nonexistent identifier. -/
theorem getUserStatusesByIds_complete_witness :
    ∃ result, (GetUserStatusesByIds (testEnv memStore) batchWorld ["u1", "u2", "u3"]).1
        = .ok result ∧
      (result.map (fun s => s.UserId)).Perm ["u1", "u2", "u3"] ∧
      ({ UserId := "u3", Status := "offline", Manual := false, LastActivityAt := 0,
         ActiveChannel := "" } : Status) ∈ result :=
  have h := getUserStatusesByIds_complete (testEnv memStore) batchWorld ["u1", "u2", "u3"]
    [⟨"u2", "away", false, 5, ""⟩] (by decide)
    (by unfold Cache.Keyed; decide) (fun _ => rfl) (by decide) (by decide)
  h.elim fun result hr =>
    ⟨result, hr.1, hr.2.1, hr.2.2.2.2.1 "u3" (by decide) rfl (by decide)⟩

/-- Witness of C8 (`getStatusesByIds_complete`): a cached identifier requested
twice, a store-only and a nonexistent identifier. -/
theorem getStatusesByIds_complete_witness :
    ∃ m, (GetStatusesByIds (testEnv memStore) batchWorld ["u1", "u2", "u3", "u1"]).1 = .ok m ∧
      (∀ k, k ∈ mapKeys m ↔ k ∈ ["u1", "u2", "u3", "u1"]) ∧
      mapGet m "u1" = some "online" ∧ mapGet m "u2" = some "away" ∧
      mapGet m "u3" = some STATUS_OFFLINE :=
  have h := getStatusesByIds_complete (testEnv memStore) batchWorld ["u1", "u2", "u3", "u1"]
    [⟨"u2", "away", false, 5, ""⟩] (fun _ => rfl) (by decide)
  h.elim fun m hm =>
    ⟨m, hm.1, hm.2.1,
      hm.2.2.2.1 "u1" ⟨"u1", "online", false, 1, ""⟩ (by decide) rfl,
      hm.2.2.2.2.1 "u2" ⟨"u2", "away", false, 5, ""⟩ (by decide) rfl rfl,
      hm.2.2.2.2.2 "u3" (by decide) rfl (by decide)⟩

/-! ## The cache stores every record under its own id -/

theorem Cache.Keyed_NewLru (size : Nat) : (Cache.NewLru size).Keyed := by
  intro e he
  cases he

theorem Cache.Keyed_Get (c : Cache) (k : String) (hk : c.Keyed) : (c.Get k).2.Keyed := by
  intro e he
  exact hk e ((Cache.Get_perm c k).mem_iff.1 he)

theorem Cache.Keyed_Add (c : Cache) (k : String) (v : Status) (hk : c.Keyed)
    (hv : v.UserId = k) : (c.Add k v).Keyed := by
  have hcons : ∀ e ∈ (k, v) :: c.entries, e.2.UserId = e.1 := by
    intro e he
    rcases List.mem_cons.1 he with rfl | h
    · exact hv
    · exact hk e h
  intro e he
  unfold Cache.Add at he
  split at he
  · rcases List.mem_cons.1 he with rfl | h
    · exact hv
    · exact hk e (List.mem_of_mem_eraseP h)
  · dsimp only at he
    split at he
    · exact hcons e (List.dropLast_subset _ he)
    · exact hcons e he

/-- `AddStatusCache` keeps the cache keyed by the `UserId` of its records, so
every cache reached from an empty one through `status.go` is. -/
theorem AddStatusCache_keyed (env : Env σ) (w : World σ) (s : Status)
    (hk : w.statusCache.Keyed) : (AddStatusCache env w s).statusCache.Keyed := by
  rw [AddStatusCache_cache]
  exact Cache.Keyed_Add _ _ _ hk rfl

/-! ## Idempotence of `SetStatusAwayIfNeeded` -/

theorem SetStatusAwayIfNeeded_cases (env : Env σ) (w : World σ) (now : Int) (U : String)
    (manual : Bool) (hsize : 0 < w.statusCache.size)
    (hid : ∀ r, current env w U = .ok r → r.UserId = U) :
    Unchanged w (SetStatusAwayIfNeeded env w now U manual) ∨
      AwayTransition w (SetStatusAwayIfNeeded env w now U manual) U manual := by
  rw [SetStatusAwayIfNeeded_eq]
  split
  · exact Or.inl (GetStatus_unchanged env w U)
  · exact Or.inr (awayTransition_of_save env w U manual hsize hid)

theorem SetStatusAwayIfNeeded_of_away (env : Env σ) (w : World σ) (now : Int) (U : String)
    (r : Status) (hp : w.statusCache.peek U = some r) (hs : r.Status = STATUS_AWAY) :
    Unchanged w (SetStatusAwayIfNeeded env w now U false) := by
  have hbase : awayBase env w U false = r := by
    unfold awayBase
    rw [current_of_cached env w U r hp]
  rw [SetStatusAwayIfNeeded_eq, hbase, if_pos (Or.inr (Or.inl (by simp [hs])))]
  exact GetStatus_unchanged env w U

/-- C11. Idempotence of `SetStatusAwayIfNeeded`.  From every starting cache and
store (a cache of positive capacity, so `U` is not evicted, and a readable
record of `U` carrying `U`'s id), two consecutive calls with `manual = false`,
at any two times, together issue at most one durable status write and publish
at most one event, and at most one of them moves `U` to `AWAY`; when the first
call moved `U` to `AWAY`, the second is a no-op. -/
theorem setStatusAwayIfNeeded_idempotent (env : Env σ) (w : World σ) (t1 t2 : Int)
    (U : String) (hsize : 0 < w.statusCache.size)
    (hid : ∀ r, current env w U = .ok r → r.UserId = U) :
    ∃ d1 d2,
      (SetStatusAwayIfNeeded env w t1 U false).log = w.log ++ d1 ∧
      (SetStatusAwayIfNeeded env (SetStatusAwayIfNeeded env w t1 U false) t2 U false).log
        = (SetStatusAwayIfNeeded env w t1 U false).log ++ d2 ∧
      ((d1 ++ d2).filter Effect.isStatusWrite).length ≤ 1 ∧
      ((d1 ++ d2).filter Effect.isPublish).length ≤ 1 ∧
      ¬ (AwayTransition w (SetStatusAwayIfNeeded env w t1 U false) U false ∧
          AwayTransition (SetStatusAwayIfNeeded env w t1 U false)
            (SetStatusAwayIfNeeded env (SetStatusAwayIfNeeded env w t1 U false) t2 U false)
            U false) ∧
      (AwayTransition w (SetStatusAwayIfNeeded env w t1 U false) U false →
        Unchanged (SetStatusAwayIfNeeded env w t1 U false)
          (SetStatusAwayIfNeeded env (SetStatusAwayIfNeeded env w t1 U false) t2 U false)) := by
  rcases SetStatusAwayIfNeeded_cases env w t1 U false hsize hid with h1 | h1
  · have hno1 := not_awayTransition_of_unchanged _ _ U false h1
    have hsize1 : 0 < (SetStatusAwayIfNeeded env w t1 U false).statusCache.size := by
      rw [h1.2.2.1]; exact hsize
    have hid1 : ∀ r, current env (SetStatusAwayIfNeeded env w t1 U false) U = .ok r →
        r.UserId = U := by
      intro r hr
      rw [current_of_unchanged env _ _ U h1] at hr
      exact hid r hr
    rcases SetStatusAwayIfNeeded_cases env _ t2 U false hsize1 hid1 with h2 | h2
    · exact ⟨[], [], by simp [h1.2.2.2.2], by simp [h2.2.2.2.2], by simp, by simp,
        fun h => hno1 h.1, fun h => absurd h hno1⟩
    · obtain ⟨r, -, -, -, -, d, hd, hw, hp⟩ := h2
      refine ⟨[], d, by simp [h1.2.2.2.2], hd, ?_, ?_, fun h => hno1 h.1,
        fun h => absurd h hno1⟩
      · rw [List.nil_append, hw]; simp
      · rw [List.nil_append, hp]; simp
  · have h1' := h1
    obtain ⟨r, hpk, hst, -, -, d, hd, hw, hp⟩ := h1'
    have h2 := SetStatusAwayIfNeeded_of_away env _ t2 U r hpk hst
    have hno2 := not_awayTransition_of_unchanged _ _ U false h2
    refine ⟨d, [], hd, by simp [h2.2.2.2.2], ?_, ?_, fun h => hno2 h.2, fun _ => h2⟩
    · rw [List.append_nil, hw]; simp
    · rw [List.append_nil, hp]; simp

/-- Witness of C11 (`setStatusAwayIfNeeded_idempotent`): an `ONLINE` user idle
for the away timeout; the first call moves the user to `AWAY`, the second, one
millisecond later, changes nothing. -/
theorem setStatusAwayIfNeeded_idempotent_witness :
    AwayTransition (testWorld 2 [⟨"u1", "online", false, 1000, ""⟩])
      (SetStatusAwayIfNeeded (testEnv memStore) (testWorld 2 [⟨"u1", "online", false, 1000, ""⟩])
        301000 "u1" false) "u1" false ∧
    Unchanged
      (SetStatusAwayIfNeeded (testEnv memStore) (testWorld 2 [⟨"u1", "online", false, 1000, ""⟩])
        301000 "u1" false)
      (SetStatusAwayIfNeeded (testEnv memStore)
        (SetStatusAwayIfNeeded (testEnv memStore)
          (testWorld 2 [⟨"u1", "online", false, 1000, ""⟩]) 301000 "u1" false)
        301001 "u1" false) :=
  have ht : AwayTransition (testWorld 2 [⟨"u1", "online", false, 1000, ""⟩])
      (SetStatusAwayIfNeeded (testEnv memStore) (testWorld 2 [⟨"u1", "online", false, 1000, ""⟩])
        301000 "u1" false) "u1" false :=
    ⟨⟨"u1", "away", false, 1000, ""⟩, rfl, rfl, rfl, rfl,
      [.statusSaveOrUpdate ⟨"u1", "away", false, 1000, ""⟩,
       .publish ⟨"status_change", "", "", "u1", [("status", "away"), ("user_id", "u1")]⟩],
      rfl, rfl, rfl⟩
  have h := setStatusAwayIfNeeded_idempotent (testEnv memStore)
    (testWorld 2 [⟨"u1", "online", false, 1000, ""⟩]) 301000 301001 "u1" (by decide)
    (fun r hr => by cases hr; rfl)
  ⟨ht, h.elim fun _ h1 => h1.elim fun _ h2 => h2.2.2.2.2.2 ht⟩

/-! ## Error propagation of the reads -/

/-- C12. Error propagation of `GetStatus`.  When `U` is cached the call
succeeds with the cached record, whatever the store is and whatever state it is
in (the store is not consulted).  When `U` is not cached the result is exactly
the answer of the store's `Get`: the call fails if and only if `Get` fails, it
then returns the store's error and no record, and when `Get` succeeds it
returns the store's record. -/
theorem getStatus_error_propagation (env : Env σ) (w : World σ) (U : String) :
    (∀ s, w.statusCache.peek U = some s →
      (GetStatus env w U).1 = .ok s ∧
      ∀ (env2 : Env σ) (st : σ), (GetStatus env2 { w with store := st } U).1 = .ok s) ∧
    (w.statusCache.peek U = none →
      (GetStatus env w U).1 = env.store.statusGet w.store U ∧
      ((∃ err, (GetStatus env w U).1 = .error err) ↔
        ∃ err, env.store.statusGet w.store U = .error err) ∧
      (∀ err, env.store.statusGet w.store U = .error err →
        (GetStatus env w U).1 = .error err) ∧
      (∀ r, env.store.statusGet w.store U = .ok r → (GetStatus env w U).1 = .ok r)) := by
  constructor
  · intro s hs
    exact ⟨current_of_cached env w U s hs,
      fun env2 st => current_of_cached env2 { w with store := st } U s hs⟩
  · intro hn
    have h : (GetStatus env w U).1 = env.store.statusGet w.store U :=
      current_of_uncached env w U hn
    refine ⟨h, ?_, ?_, ?_⟩
    · rw [h]
    · intro err he
      rw [h, he]
    · intro r hr
      rw [h, hr]

/-- Witness of C12 (`getStatus_error_propagation`): `u1` is cached and is read
even from an unreachable store; `u3` has no record anywhere and the read fails
with the error of the store. -/
theorem getStatus_error_propagation_witness :
    batchWorld.statusCache.peek "u1" = some ⟨"u1", "online", false, 1, ""⟩ ∧
    (GetStatus (testEnv brokenStore) { batchWorld with store := [] } "u1").1
      = .ok ⟨"u1", "online", false, 1, ""⟩ ∧
    batchWorld.statusCache.peek "u3" = none ∧
    memStore.statusGet batchWorld.store "u3"
      = .error { Id := "store.sql_status.get.missing.app_error" } ∧
    (GetStatus (testEnv memStore) batchWorld "u3").1
      = .error { Id := "store.sql_status.get.missing.app_error" } :=
  have h1 := getStatus_error_propagation (testEnv memStore) batchWorld "u1"
  have h3 := getStatus_error_propagation (testEnv memStore) batchWorld "u3"
  ⟨rfl, (h1.1 ⟨"u1", "online", false, 1, ""⟩ rfl).2 (testEnv brokenStore) [], rfl, rfl,
    (h3.2 rfl).2.2.1 { Id := "store.sql_status.get.missing.app_error" } rfl⟩

theorem GetStatusesByIds_result (env : Env σ) (w : World σ) (userIds : List String) :
    (uncached w userIds = [] → ∃ m, (GetStatusesByIds env w userIds).1 = .ok m) ∧
    (uncached w userIds ≠ [] → ∀ err,
      env.store.statusGetByIds w.store (uncached w userIds) = .error err →
      (GetStatusesByIds env w userIds).1 = .error err) ∧
    (uncached w userIds ≠ [] → ∀ statuses,
      env.store.statusGetByIds w.store (uncached w userIds) = .ok statuses →
      ∃ m, (GetStatusesByIds env w userIds).1 = .ok m) := by
  obtain ⟨hmiss, -, -, -, -, hst⟩ := GetStatusesByIds.lookup_fold env userIds ([], [], w)
  rw [List.nil_append] at hmiss
  unfold GetStatusesByIds
  dsimp only
  rw [hmiss, hst]
  refine ⟨fun h => ?_, fun h err he => ?_, fun h statuses he => ?_⟩
  · rw [h]
    exact ⟨_, rfl⟩
  · rw [if_pos (List.length_pos.2 h), he]
  · rw [if_pos (List.length_pos.2 h), he]
    exact ⟨_, rfl⟩

theorem GetUserStatusesByIds_result (env : Env σ) (w : World σ) (userIds : List String) :
    (uncached w userIds = [] → ∃ l, (GetUserStatusesByIds env w userIds).1 = .ok l) ∧
    (uncached w userIds ≠ [] → ∀ err,
      env.store.statusGetByIds w.store (uncached w userIds) = .error err →
      (GetUserStatusesByIds env w userIds).1 = .error err) ∧
    (uncached w userIds ≠ [] → ∀ statuses,
      env.store.statusGetByIds w.store (uncached w userIds) = .ok statuses →
      ∃ l, (GetUserStatusesByIds env w userIds).1 = .ok l) := by
  obtain ⟨-, hmiss, -, hst⟩ := GetUserStatusesByIds.listLookup_fold env userIds ([], [], w)
  rw [List.nil_append] at hmiss
  unfold GetUserStatusesByIds
  dsimp only
  rw [hmiss, hst]
  refine ⟨fun h => ?_, fun h err he => ?_, fun h statuses he => ?_⟩
  · rw [h]
    exact ⟨_, rfl⟩
  · rw [if_pos (List.length_pos.2 h), he]
  · rw [if_pos (List.length_pos.2 h), he]
    exact ⟨_, rfl⟩

theorem error_iff_of_result {α : Type} (res : Except AppError α) (ans : Except AppError (List Status))
    (miss : Prop)
    (h1 : ¬ miss → ∃ m, res = .ok m)
    (h2 : miss → ∀ err, ans = .error err → res = .error err)
    (h3 : miss → ∀ statuses, ans = .ok statuses → ∃ m, res = .ok m) :
    (∃ err, res = .error err) ↔ (miss ∧ ∃ err, ans = .error err) := by
  constructor
  · rintro ⟨err, he⟩
    by_cases hm : miss
    · cases ha : ans with
      | error e => exact ⟨hm, e, rfl⟩
      | ok statuses =>
        obtain ⟨m, hmok⟩ := h3 hm statuses ha
        rw [hmok] at he
        cases he
    · obtain ⟨m, hmok⟩ := h1 hm
      rw [hmok] at he
      cases he
  · rintro ⟨hm, err, he⟩
    exact ⟨err, h2 hm err he⟩

theorem uncached_ne_nil_iff (w : World σ) (userIds : List String) :
    uncached w userIds ≠ [] ↔ ∃ u ∈ userIds, w.statusCache.peek u = none := by
  constructor
  · intro h
    obtain ⟨u, hu⟩ := List.exists_mem_of_ne_nil _ h
    exact ⟨u, (mem_uncached w userIds u).1 hu⟩
  · rintro ⟨u, hu, hp⟩ h
    have := (mem_uncached w userIds u).2 ⟨hu, hp⟩
    rw [h] at this
    cases this

/-- C13. Error propagation of the batch reads.  For every list of requested
identifiers, each of `GetStatusesByIds` and `GetUserStatusesByIds` returns an
error if and only if some requested identifier is not cached and the store's
`GetByIds` call for the uncached identifiers fails; the error returned is then
the store's error and there is no result.  When every requested identifier is
cached the call succeeds whatever the store is and whatever state it is in (the
store is not consulted).  Whenever the store's call succeeds the batch read
succeeds, whichever records the answer holds or lacks: an identifier with a
record in neither cache nor store never causes an error. -/
theorem batchRead_error_propagation (env : Env σ) (w : World σ) (userIds : List String) :
    ((∃ err, (GetStatusesByIds env w userIds).1 = .error err) ↔
      ((∃ u ∈ userIds, w.statusCache.peek u = none) ∧
        ∃ err, env.store.statusGetByIds w.store (uncached w userIds) = .error err)) ∧
    ((∃ err, (GetUserStatusesByIds env w userIds).1 = .error err) ↔
      ((∃ u ∈ userIds, w.statusCache.peek u = none) ∧
        ∃ err, env.store.statusGetByIds w.store (uncached w userIds) = .error err)) ∧
    ((∃ u ∈ userIds, w.statusCache.peek u = none) → ∀ err,
      env.store.statusGetByIds w.store (uncached w userIds) = .error err →
      (GetStatusesByIds env w userIds).1 = .error err ∧
      (GetUserStatusesByIds env w userIds).1 = .error err) ∧
    ((∀ u ∈ userIds, ∃ s, w.statusCache.peek u = some s) →
      ∀ (env2 : Env σ) (st : σ),
        (∃ m, (GetStatusesByIds env2 { w with store := st } userIds).1 = .ok m) ∧
        (∃ l, (GetUserStatusesByIds env2 { w with store := st } userIds).1 = .ok l)) ∧
    (∀ statuses, env.store.statusGetByIds w.store (uncached w userIds) = .ok statuses →
      (∃ m, (GetStatusesByIds env w userIds).1 = .ok m) ∧
      (∃ l, (GetUserStatusesByIds env w userIds).1 = .ok l)) := by
  obtain ⟨m1, m2, m3⟩ := GetStatusesByIds_result env w userIds
  obtain ⟨l1, l2, l3⟩ := GetUserStatusesByIds_result env w userIds
  have hmiss := uncached_ne_nil_iff w userIds
  refine ⟨?_, ?_, ?_, ?_, ?_⟩
  · rw [← hmiss]
    exact error_iff_of_result _ _ _ (fun h => m1 (not_not.1 h)) m2 m3
  · rw [← hmiss]
    exact error_iff_of_result _ _ _ (fun h => l1 (not_not.1 h)) l2 l3
  · intro h err he
    exact ⟨m2 (hmiss.2 h) err he, l2 (hmiss.2 h) err he⟩
  · intro hall env2 st
    have hnil : uncached w userIds = [] := by
      by_contra hne
      obtain ⟨u, hu, hp⟩ := hmiss.1 hne
      obtain ⟨s, hs⟩ := hall u hu
      rw [hp] at hs
      cases hs
    exact ⟨(GetStatusesByIds_result env2 { w with store := st } userIds).1 hnil,
      (GetUserStatusesByIds_result env2 { w with store := st } userIds).1 hnil⟩
  · intro statuses hs
    by_cases hnil : uncached w userIds = []
    · exact ⟨m1 hnil, l1 hnil⟩
    · exact ⟨m3 hnil statuses hs, l3 hnil statuses hs⟩

/-- Witness of C13 (`batchRead_error_propagation`): over an unreachable store a
request with the uncached `u2` fails in both forms with the store's error, a
request for the cached `u1` alone succeeds, and over a working store a request
with the nonexistent `u3` succeeds. -/
theorem batchRead_error_propagation_witness :
    ((GetStatusesByIds (testEnv brokenStore) batchWorld ["u1", "u2"]).1
        = .error { Id := "store.sql_status.get_by_ids.app_error" } ∧
      (GetUserStatusesByIds (testEnv brokenStore) batchWorld ["u1", "u2"]).1
        = .error { Id := "store.sql_status.get_by_ids.app_error" }) ∧
    ((∃ m, (GetStatusesByIds (testEnv brokenStore) { batchWorld with store := [] } ["u1"]).1
        = .ok m) ∧
      ∃ l, (GetUserStatusesByIds (testEnv brokenStore) { batchWorld with store := [] } ["u1"]).1
        = .ok l) ∧
    ((∃ m, (GetStatusesByIds (testEnv memStore) batchWorld ["u1", "u3"]).1 = .ok m) ∧
      ∃ l, (GetUserStatusesByIds (testEnv memStore) batchWorld ["u1", "u3"]).1 = .ok l) :=
  ⟨(batchRead_error_propagation (testEnv brokenStore) batchWorld ["u1", "u2"]).2.2.1
      ⟨"u2", by decide, rfl⟩ { Id := "store.sql_status.get_by_ids.app_error" } rfl,
    (batchRead_error_propagation (testEnv memStore) batchWorld ["u1"]).2.2.2.1
      (fun u hu => ⟨⟨"u1", "online", false, 1, ""⟩, by
        have : u = "u1" := by simpa using hu
        subst this
        rfl⟩) (testEnv brokenStore) [],
    (batchRead_error_propagation (testEnv memStore) batchWorld ["u1", "u3"]).2.2.2.2
      [] rfl⟩

end Platform
